import Mathlib

/-!
# bbnotifier: the target reconciliation engine

A shallow embedding of `internal/storage/json.go` (with the types of
`internal/storage/types.go` and `internal/scraper/scraper.go`) and of
`internal/notifier/notifier.go`, and theorems about them.

Modelling conventions.

* `time.Time` is a natural number (an instant).  Every call of `getISTTime()` reads the
  wall clock once: the `n`-th reading of a run is `env.clock n`, and the number of readings
  made so far is kept in the state (`World.ticks`).
* `getISTTime()` loads the zone `Asia/Kolkata` and drops the error of `time.LoadLocation`:
  when the zone cannot be loaded (`Env.zoneLoaded = false`) the call panics in `Time.In`.
  `getISTTime` has this panic and `LoadTargets` is modelled with it.  `CompareTargets`,
  `SaveNewTargets` and the body of `UpdateTargets` after the load are modelled on a host where
  the zone loads: there a call of `getISTTime()` is the reading `readClock`.
* A Go `map[string]V` is an association list with pairwise distinct keys (`GoMap`).
  `m[k] = v` is `GoMap.set`.  The order in which `range` visits a map is not specified by
  Go; it is a parameter of the environment (`RangeOrder`), an arbitrary rearrangement of the
  entries of the map.
* The file system is a function from paths to `FileState`.  `encoding/json`, `os.MkdirAll`
  and the success of `os.WriteFile` are parameters of the environment (`Env`).  A failed
  `os.WriteFile` is modelled as leaving the file as it was.
* Log output is not modelled.
-/

set_option autoImplicit false
set_option linter.dupNamespace false

namespace scraper

/-- The struct `scraper.Target` (`internal/scraper/scraper.go`). -/
structure Target where
  ProgramName : String
  Target : String
  Category : String
  AddedAt : Nat
  deriving DecidableEq, Repr

end scraper

namespace storage

/-- The struct `StoredTarget` (`internal/storage/types.go`). -/
structure StoredTarget where
  ProgramName : String
  Target : String
  Category : String
  FirstSeen : Nat
  deriving DecidableEq, Repr

/-- The struct `TargetHistory` (`internal/storage/types.go`). -/
structure TargetHistory where
  LastUpdated : Nat
  Targets : List StoredTarget
  deriving DecidableEq, Repr

/-- The struct `TargetDiff` (`internal/storage/types.go`). -/
structure TargetDiff where
  NewTargets : List StoredTarget
  Removed : List StoredTarget
  deriving DecidableEq, Repr

/-- The struct `Storage`; the logger is not modelled. -/
structure Storage where
  filePath : String
  deriving DecidableEq, Repr

/-! ## Go maps -/

/-- A Go `map[string]V`: an association list, keys pairwise distinct. -/
abbrev GoMap (V : Type) := List (String × V)

/-- The assignment `m[k] = v`: overwrite the value of an existing key, else add the key. -/
def GoMap.set {V : Type} : GoMap V → String → V → GoMap V
  | [], k, v => [(k, v)]
  | (k', v') :: rest, k, v =>
    if k' = k then (k, v) :: rest else (k', v') :: GoMap.set rest k v

/-- The test `_, exists := m[k]`. -/
def GoMap.has {V : Type} (m : GoMap V) (k : String) : Bool :=
  m.any (fun kv => decide (kv.1 = k))

/-- One admissible behaviour of `range` over a map: a rearrangement of its entries. -/
structure RangeOrder (α : Type) where
  order : List α → List α
  perm : ∀ l : List α, (order l).Perm l

/-- The `range` that visits the entries in order of first insertion. -/
def RangeOrder.insertion (α : Type) : RangeOrder α :=
  ⟨fun l => l, fun l => List.Perm.refl l⟩

/-! ## The environment and the state of a run -/

/-- What `os.Stat` and `os.ReadFile` report about a path. -/
inductive FileState where
  /-- `os.Stat` fails with an error for which `os.IsNotExist` holds. -/
  | notExist
  /-- `os.Stat` fails with another error; the returned `FileInfo` is nil. -/
  | statError
  /-- `os.Stat` succeeds and reports `size`; `os.ReadFile` returns `content`, or fails
  when `content` is `none`. -/
  | present (size : Nat) (content : Option (List Nat))
  deriving DecidableEq, Repr

/-- The parts of the run that the repository does not define. -/
structure Env where
  /-- The successive readings of the wall clock. -/
  clock : Nat → Nat
  /-- The function `json.MarshalIndent(history, "", "  ")`; `none` is an error. -/
  marshalIndent : TargetHistory → Option (List Nat)
  /-- The function `json.Unmarshal(data, &history)`; `none` is an error. -/
  unmarshal : List Nat → Option TargetHistory
  /-- Whether `os.MkdirAll(dir, 0755)` succeeds. -/
  mkdirAllOk : Bool
  /-- Whether the `os.WriteFile` of `SaveTargets` succeeds. -/
  writeTargetsOk : Bool
  /-- Whether the `os.WriteFile` to `new-targets.json` succeeds. -/
  writeNewTargetsOk : Bool
  /-- The function `filepath.Join(filepath.Dir(filePath), "new-targets.json")`. -/
  newTargetsPath : String → String
  /-- The order of `for key, target := range newMap`. -/
  rangeNew : RangeOrder (String × scraper.Target)
  /-- The order of `for key, target := range storedMap`. -/
  rangeStored : RangeOrder (String × StoredTarget)
  /-- Whether `time.LoadLocation("Asia/Kolkata")` succeeds. -/
  zoneLoaded : Bool
  /-- The text of the error that `os.ReadFile` returns when it fails. -/
  readFileError : String

/-- The mutable state: clock readings made so far, and the file system. -/
structure World where
  ticks : Nat
  files : String → FileState

/-- The result of a Go function returning `(T, error)`, or a run-time panic. -/
inductive Result (α : Type) where
  | ok (value : α)
  | error (msg : String)
  | panic
  deriving DecidableEq, Repr

/-- The reading `time.Now().In(ist)` of a call of `getISTTime()` whose zone is loaded: one
reading of the clock. -/
def readClock (env : Env) (w : World) : Nat × World :=
  (env.clock w.ticks, { w with ticks := w.ticks + 1 })

/-- The function `getISTTime()`: `ist, _ := time.LoadLocation("Asia/Kolkata")`, then
`time.Now().In(ist)`. When the zone is not loaded `ist` is nil and `Time.In` panics: the
result is `none`. -/
def getISTTime (env : Env) (w : World) : Option (Nat × World) :=
  if env.zoneLoaded = false then none else some (readClock env w)

/-- The effect of a successful `os.WriteFile(path, data, 0644)`. -/
def writeFile (w : World) (path : String) (data : List Nat) : World :=
  { w with files := fun p => if p = path then FileState.present data.length (some data)
                             else w.files p }

/-! ## `LoadTargets`, `SaveTargets`, `SaveNewTargets` -/

/-- The statement `return &TargetHistory{LastUpdated: getISTTime(), Targets: []StoredTarget{}},
nil` of `LoadTargets`; it panics when `getISTTime()` does. -/
def LoadTargets.emptyHistory (env : Env) (w : World) : Result TargetHistory × World :=
  match getISTTime env w with
  | none => (Result.panic, w)
  | some (now, w1) => (Result.ok { LastUpdated := now, Targets := [] }, w1)

/-- The method `Storage.LoadTargets`. When `os.Stat` fails with an error other than
not-exist, `info` is nil and `info.Size()` panics. -/
def Storage.LoadTargets (env : Env) (s : Storage) (w : World) :
    Result TargetHistory × World :=
  match w.files s.filePath with
  | FileState.notExist => LoadTargets.emptyHistory env w
  | FileState.statError => (Result.panic, w)
  | FileState.present size content =>
    if size = 0 then LoadTargets.emptyHistory env w
    else
      match content with
      | none => (Result.error ("failed to read targets file: " ++ env.readFileError), w)
      | some data =>
        match env.unmarshal data with
        | none => LoadTargets.emptyHistory env w
        | some history => (Result.ok history, w)

/-- The method `Storage.SaveTargets`; the result is the returned error, `none` for nil. -/
def Storage.SaveTargets (env : Env) (s : Storage) (history : TargetHistory) (w : World) :
    Option String × World :=
  if env.mkdirAllOk = false then (some "failed to create directory", w)
  else
    match env.marshalIndent history with
    | none => (some "failed to marshal targets to JSON", w)
    | some data =>
      if env.writeTargetsOk = false then (some "failed to write targets file", w)
      else (none, writeFile w s.filePath data)

/-- The method `Storage.SaveNewTargets`; the result is the returned error. -/
def Storage.SaveNewTargets (env : Env) (s : Storage) (newTargets : List StoredTarget)
    (w : World) : Option String × World :=
  let newTargetsPath := env.newTargetsPath s.filePath
  let (now, w1) := readClock env w
  let newTargetsHistory : TargetHistory := { LastUpdated := now, Targets := newTargets }
  match env.marshalIndent newTargetsHistory with
  | none => (some "failed to marshal new targets to JSON", w1)
  | some data =>
    if env.writeNewTargetsOk = false then (some "failed to write new-targets file", w1)
    else (none, writeFile w1 newTargetsPath data)

/-! ## `CompareTargets` -/

/-- The identity key of a fetched target: `target.ProgramName + "|" + target.Target`. -/
def newKey (t : scraper.Target) : String := t.ProgramName ++ "|" ++ t.Target

/-- The identity key of a stored target: `target.ProgramName + "|" + target.Target`. -/
def storedKey (t : StoredTarget) : String := t.ProgramName ++ "|" ++ t.Target

/-- The loop `for _, target := range targets { m[key(target)] = target }`. -/
def GoMap.collect {V : Type} (key : V → String) : List V → GoMap V → GoMap V
  | [], m => m
  | target :: rest, m => GoMap.collect key rest (GoMap.set m (key target) target)

/-- The first loop of `CompareTargets`: build `storedMap` from an empty map. -/
def CompareTargets.storedMap (targets : List StoredTarget) : GoMap StoredTarget :=
  GoMap.collect storedKey targets []

/-- The second loop of `CompareTargets`: build `newMap` from an empty map. -/
def CompareTargets.newMap (targets : List scraper.Target) : GoMap scraper.Target :=
  GoMap.collect newKey targets []

/-- The loop "Find new targets" over the visited entries of `newMap`; every appended entry
takes one reading of the clock. -/
def CompareTargets.findNew (env : Env) (storedMap : GoMap StoredTarget) :
    List (String × scraper.Target) → World → List StoredTarget × World
  | [], w => ([], w)
  | (key, target) :: rest, w =>
    if GoMap.has storedMap key then CompareTargets.findNew env storedMap rest w
    else
      let (now, w1) := readClock env w
      let (more, w2) := CompareTargets.findNew env storedMap rest w1
      ({ ProgramName := target.ProgramName, Target := target.Target,
         Category := target.Category, FirstSeen := now } :: more, w2)

/-- The loop "Find removed targets" over the visited entries of `storedMap`. -/
def CompareTargets.findRemoved (newMap : GoMap scraper.Target) :
    List (String × StoredTarget) → List StoredTarget
  | [] => []
  | (key, target) :: rest =>
    if GoMap.has newMap key then CompareTargets.findRemoved newMap rest
    else target :: CompareTargets.findRemoved newMap rest

/-- The method `Storage.CompareTargets`. -/
def Storage.CompareTargets (env : Env) (newTargets : List scraper.Target)
    (storedHistory : TargetHistory) (w : World) : TargetDiff × World :=
  let storedMap := CompareTargets.storedMap storedHistory.Targets
  let newMap := CompareTargets.newMap newTargets
  let (added, w1) := CompareTargets.findNew env storedMap (env.rangeNew.order newMap) w
  let removed := CompareTargets.findRemoved newMap (env.rangeStored.order storedMap)
  ({ NewTargets := added, Removed := removed }, w1)

/-! ## `UpdateTargets` -/

/-- The loop "Filter out NO_IN_SCOPE_TABLE targets". -/
def UpdateTargets.filteredTargets (newTargets : List scraper.Target) : List scraper.Target :=
  newTargets.filter (fun target => target.Target != "NO_IN_SCOPE_TABLE")

/-- The inner loop of `UpdateTargets`: the first stored target with the program name and
the target of `target`, if any. -/
def UpdateTargets.lookup (target : scraper.Target) : List StoredTarget → Option StoredTarget
  | [] => none
  | stored :: rest =>
    if stored.ProgramName = target.ProgramName ∧ stored.Target = target.Target then some stored
    else UpdateTargets.lookup target rest

/-- The outer loop of `UpdateTargets` that creates `updatedTargets`; `targetMap` is written
and never read, so it is left out. -/
def UpdateTargets.updatedTargets (env : Env) (stored : List StoredTarget) :
    List scraper.Target → World → List StoredTarget × World
  | [], w => ([], w)
  | target :: rest, w =>
    match UpdateTargets.lookup target stored with
    | some found =>
      let (more, w1) := UpdateTargets.updatedTargets env stored rest w
      (found :: more, w1)
    | none =>
      let (now, w1) := readClock env w
      let (more, w2) := UpdateTargets.updatedTargets env stored rest w1
      ({ ProgramName := target.ProgramName, Target := target.Target,
         Category := target.Category, FirstSeen := now } :: more, w2)

/-- The branch of `UpdateTargets` that handles `new-targets.json`; errors are only logged. -/
def UpdateTargets.exportNewTargets (env : Env) (s : Storage) (diff : TargetDiff)
    (w : World) : World :=
  let newTargetsPath := env.newTargetsPath s.filePath
  if diff.NewTargets.length > 0 then
    (Storage.SaveNewTargets env s diff.NewTargets w).2
  else
    let (now, w1) := readClock env w
    let emptyHistory : TargetHistory := { LastUpdated := now, Targets := [] }
    match env.marshalIndent emptyHistory with
    | none => w1
    | some data =>
      if env.writeNewTargetsOk = false then w1 else writeFile w1 newTargetsPath data

/-- The body of `UpdateTargets` between the load and the save: the diff, the export of the
additions, and the history (`history.Targets = updatedTargets`,
`history.LastUpdated = getISTTime()`) that is handed to `SaveTargets`. -/
def UpdateTargets.reconcile (env : Env) (s : Storage) (filteredTargets : List scraper.Target)
    (history : TargetHistory) (w1 : World) : TargetDiff × TargetHistory × World :=
  let (diff, w2) := Storage.CompareTargets env filteredTargets history w1
  let w3 := UpdateTargets.exportNewTargets env s diff w2
  let (updatedTargets, w4) :=
    UpdateTargets.updatedTargets env history.Targets filteredTargets w3
  let (now, w5) := readClock env w4
  (diff, { LastUpdated := now, Targets := updatedTargets }, w5)

/-- The method `Storage.UpdateTargets`. -/
def Storage.UpdateTargets (env : Env) (s : Storage) (newTargets : List scraper.Target)
    (w : World) : Result TargetDiff × World :=
  let filteredTargets := UpdateTargets.filteredTargets newTargets
  match Storage.LoadTargets env s w with
  | (Result.panic, w1) => (Result.panic, w1)
  | (Result.error msg, w1) =>
    (Result.error ("failed to load existing targets: " ++ msg), w1)
  | (Result.ok history, w1) =>
    let (diff, history1, w5) := UpdateTargets.reconcile env s filteredTargets history w1
    match Storage.SaveTargets env s history1 w5 with
    | (some msg, w6) => (Result.error ("failed to save updated targets: " ++ msg), w6)
    | (none, w6) => (Result.ok diff, w6)

/-! ## A concrete environment

A length-prefixed encoding of histories as lists of numbers stands in for `encoding/json`
in the concrete runs below. -/

/-- Encode a string: its length, then its characters. -/
def demoEncodeString (str : String) : List Nat :=
  str.length :: str.toList.map Char.toNat

/-- Encode a stored target: its three strings, then `FirstSeen`. -/
def demoEncodeTarget (t : StoredTarget) : List Nat :=
  demoEncodeString t.ProgramName ++ demoEncodeString t.Target ++
    demoEncodeString t.Category ++ [t.FirstSeen]

/-- Encode a history: `LastUpdated`, the number of targets, then the targets. -/
def demoMarshal (h : TargetHistory) : Option (List Nat) :=
  some (h.LastUpdated :: h.Targets.length :: (h.Targets.map demoEncodeTarget).flatten)

/-- Decode a string. -/
def demoDecodeString : List Nat → Option (String × List Nat)
  | [] => none
  | n :: rest =>
    if n ≤ rest.length then some (String.mk ((rest.take n).map Char.ofNat), rest.drop n)
    else none

/-- Decode a stored target. -/
def demoDecodeTarget (data : List Nat) : Option (StoredTarget × List Nat) :=
  match demoDecodeString data with
  | none => none
  | some (p, d1) =>
    match demoDecodeString d1 with
    | none => none
    | some (t, d2) =>
      match demoDecodeString d2 with
      | none => none
      | some (_, []) => none
      | some (c, seen :: d3) =>
        some ({ ProgramName := p, Target := t, Category := c, FirstSeen := seen }, d3)

/-- Decode `n` stored targets. -/
def demoDecodeTargets : Nat → List Nat → Option (List StoredTarget × List Nat)
  | 0, data => some ([], data)
  | n + 1, data =>
    match demoDecodeTarget data with
    | none => none
    | some (t, d1) =>
      match demoDecodeTargets n d1 with
      | none => none
      | some (ts, d2) => some (t :: ts, d2)

/-- Decode a history; trailing data is an error. -/
def demoUnmarshal : List Nat → Option TargetHistory
  | lastUpdated :: n :: data =>
    match demoDecodeTargets n data with
    | some (ts, []) => some { LastUpdated := lastUpdated, Targets := ts }
    | _ => none
  | _ => none

/-- An environment in which every operation succeeds; the clock reads 100, 101, ... -/
def demoEnv : Env where
  zoneLoaded := true
  readFileError := "open data/targets.json: permission denied"
  clock := fun n => 100 + n
  marshalIndent := demoMarshal
  unmarshal := demoUnmarshal
  mkdirAllOk := true
  writeTargetsOk := true
  writeNewTargetsOk := true
  newTargetsPath := fun _ => "data/new-targets.json"
  rangeNew := RangeOrder.insertion _
  rangeStored := RangeOrder.insertion _

/-- The storage handle of `main`: `data/targets.json`. -/
def demoStorage : Storage := { filePath := "data/targets.json" }

/-- A file holding the encoding of `h`. -/
def demoFile (h : TargetHistory) : FileState :=
  match demoMarshal h with
  | some data => FileState.present data.length (some data)
  | none => FileState.notExist

/-- A world with no clock reading made, whose snapshot file holds `h` and which has no
other file. -/
def demoWorld (h : TargetHistory) : World where
  ticks := 0
  files := fun p => if p = "data/targets.json" then demoFile h else FileState.notExist

/-- A stored snapshot: one target of program `P1`, one of program `P2`. -/
def demoSnapshot : TargetHistory :=
  { LastUpdated := 5,
    Targets := [⟨"P1", "T1", "domain", 7⟩, ⟨"P2", "T3", "domain", 8⟩] }

/-- A fetched list: the stored target `T1` of `P1` with another category, a new target `T2`,
and a sentinel entry. -/
def demoFetched : List scraper.Target :=
  [⟨"P1", "T1", "wildcard", 0⟩, ⟨"P1", "T2", "wildcard", 0⟩, ⟨"P3", "NO_IN_SCOPE_TABLE", "x", 0⟩]

/-! ## Notions used in the statements -/

/-- Whether a string contains the separator of the identity key. -/
def hasSeparator (p : String) : Bool := p.data.contains '|'

/-- The diff `diff` of fetched `F` against snapshot `S` is the two-way set difference by
the pair (program name, target), and every removed entry is a stored entry. -/
def DiffByPair (F : List scraper.Target) (S : TargetHistory) (diff : TargetDiff) : Prop :=
  (∀ p t : String, (∃ e ∈ diff.NewTargets, e.ProgramName = p ∧ e.Target = t) ↔
    ((∃ f ∈ F, f.ProgramName = p ∧ f.Target = t) ∧
      ¬ ∃ s ∈ S.Targets, s.ProgramName = p ∧ s.Target = t)) ∧
  (∀ p t : String, (∃ e ∈ diff.Removed, e.ProgramName = p ∧ e.Target = t) ↔
    ((∃ s ∈ S.Targets, s.ProgramName = p ∧ s.Target = t) ∧
      ¬ ∃ f ∈ F, f.ProgramName = p ∧ f.Target = t)) ∧
  (∀ e ∈ diff.Removed, e ∈ S.Targets)

/-- The diff `diff` of fetched `F` against snapshot `S` is the two-way set difference by
the key string `ProgramName + "|" + Target`, every removed entry is a stored entry, and
every added entry has the fields of a fetched target. -/
def DiffByKey (F : List scraper.Target) (S : TargetHistory) (diff : TargetDiff) : Prop :=
  (∀ k : String, (∃ e ∈ diff.NewTargets, storedKey e = k) ↔
    ((∃ f ∈ F, newKey f = k) ∧ ¬ ∃ s ∈ S.Targets, storedKey s = k)) ∧
  (∀ k : String, (∃ e ∈ diff.Removed, storedKey e = k) ↔
    ((∃ s ∈ S.Targets, storedKey s = k) ∧ ¬ ∃ f ∈ F, newKey f = k)) ∧
  (∀ e ∈ diff.Removed, e ∈ S.Targets) ∧
  (∀ e ∈ diff.NewTargets, ∃ f ∈ F, e.ProgramName = f.ProgramName ∧ e.Target = f.Target ∧
    e.Category = f.Category)

/-- After the run, the snapshot file holds the encoding of the history `h`. -/
def Persists (env : Env) (s : Storage) (w : World) (h : TargetHistory) : Prop :=
  ∃ data, env.marshalIndent h = some data ∧
    w.files s.filePath = FileState.present data.length (some data)

/-- The pair (p, t) is carried forward: a stored entry with that pair is in the new list. -/
def Carried (stored updated : List StoredTarget) (p t : String) : Prop :=
  ∃ e ∈ updated, e ∈ stored ∧ e.ProgramName = p ∧ e.Target = t

/-- The pair (p, t) is added: it is in the added list of the diff and in the new list. -/
def Added (diff : TargetDiff) (updated : List StoredTarget) (p t : String) : Prop :=
  (∃ e ∈ diff.NewTargets, e.ProgramName = p ∧ e.Target = t) ∧
    ∃ e ∈ updated, e.ProgramName = p ∧ e.Target = t

/-- The pair (p, t) is removed: it is in the removed list of the diff and not in the new
list. -/
def Removed (diff : TargetDiff) (updated : List StoredTarget) (p t : String) : Prop :=
  (∃ e ∈ diff.Removed, e.ProgramName = p ∧ e.Target = t) ∧
    ¬ ∃ e ∈ updated, e.ProgramName = p ∧ e.Target = t

/-- Exactly one of three propositions holds. -/
def ExactlyOne (a b c : Prop) : Prop :=
  (a ∧ ¬ b ∧ ¬ c) ∨ (¬ a ∧ b ∧ ¬ c) ∨ (¬ a ∧ ¬ b ∧ c)

/-- Every pair of the stored list or of the (filtered) fetched list is in exactly one of the
three classes. -/
def Classified (stored : List StoredTarget) (fetched : List scraper.Target)
    (diff : TargetDiff) (updated : List StoredTarget) : Prop :=
  ∀ p t : String,
    ((∃ st ∈ stored, st.ProgramName = p ∧ st.Target = t) ∨
      (∃ f ∈ fetched, f.ProgramName = p ∧ f.Target = t)) →
    ExactlyOne (Carried stored updated p t) (Added diff updated p t) (Removed diff updated p t)

/-- No pair occurs twice in the new list, in the added list or in the removed list. -/
def NoPairTwice (diff : TargetDiff) (updated : List StoredTarget) : Prop :=
  (updated.map (fun e => (e.ProgramName, e.Target))).Nodup ∧
  (diff.NewTargets.map (fun e => (e.ProgramName, e.Target))).Nodup ∧
  (diff.Removed.map (fun e => (e.ProgramName, e.Target))).Nodup

/-- The environment `env` with the outcome of the write to `new-targets.json` set to `b`. -/
def Env.withExportWrite (env : Env) (b : Bool) : Env :=
  { env with writeNewTargetsOk := b }

/-- After the run, the additions-export file holds the encoding of a history whose entry
list is `added`. -/
def ExportHolds (env : Env) (s : Storage) (w : World) (added : List StoredTarget) : Prop :=
  ∃ t data, env.marshalIndent ⟨t, added⟩ = some data ∧
    w.files (env.newTargetsPath s.filePath) = FileState.present data.length (some data)

/-- The history that the export branch of `UpdateTargets` hands to `json.MarshalIndent` when
it runs in the world `w`: the reading of the clock there and the added list of the diff. -/
def UpdateTargets.exportHistory (env : Env) (diff : TargetDiff) (w : World) : TargetHistory :=
  { LastUpdated := (readClock env w).1, Targets := diff.NewTargets }

/-- The environment `demoEnv` with an encoder that fails on a history with an instant past
9999, as `encoding/json` fails on a `time.Time` whose year is past 9999. -/
def demoEnvInstantLimit : Env :=
  { demoEnv with
    marshalIndent := fun h =>
      if h.LastUpdated > 9999 ∨ ∃ e ∈ h.Targets, e.FirstSeen > 9999 then none
      else demoMarshal h }

/-- A world with no clock reading made, whose snapshot file holds `h` and whose
additions-export file holds `old`. -/
def demoWorldWithExport (h old : TargetHistory) : World where
  ticks := 0
  files := fun p =>
    if p = "data/targets.json" then demoFile h
    else if p = "data/new-targets.json" then demoFile old
    else FileState.notExist

/-- The environment `demoEnv` in which the write of the snapshot file fails. -/
def demoEnvSaveFails : Env := { demoEnv with writeTargetsOk := false }

end storage

namespace notifier

/-! ## `NotifyNewTargets` (`internal/notifier/notifier.go`)

`json.Marshal`, `http.Post` and `time.Time.Format(time.RFC1123)` are parameters of the
environment. The state is the list of payloads handed to `http.Post` so far, in order. The
`for` loop over the chunks is run with fuel; `NotifyNewTargets` gives it one unit of fuel per
block, and the theorems show that this is enough. -/

/-- The struct `notifier.Target` (`internal/notifier/types.go`). -/
structure Target where
  ProgramName : String
  Target : String
  Category : String
  FirstSeen : Nat
  deriving DecidableEq, Repr

/-- The struct `Text`; the field `Type` of the source is `Kind` here (`Type` is reserved). -/
structure Text where
  Kind : String
  Text : String
  deriving DecidableEq, Repr

/-- The struct `FieldText`; the field `Type` of the source is `Kind` here. -/
structure FieldText where
  Kind : String
  Text : String
  deriving DecidableEq, Repr

/-- The struct `Block`; the field `Type` of the source is `Kind` here, a nil `*Text` is
`none`. -/
structure Block where
  Kind : String
  Text : Option Text
  Fields : List FieldText
  deriving DecidableEq, Repr

/-- The struct `SlackMessage`. -/
structure SlackMessage where
  Blocks : List Block
  deriving DecidableEq, Repr

/-- The parts of a notification that the repository does not define. -/
structure SlackEnv where
  /-- The function `t.Format(time.RFC1123)`. -/
  formatRFC1123 : Nat → String
  /-- The function `json.Marshal(chunk)`; `none` is an error. -/
  marshal : SlackMessage → Option String
  /-- The `k`-th call of `http.Post(webhookURL, "application/json", payload)` of the
  process: `none` is a transport error, otherwise the status code and the body of the
  response. -/
  post : Nat → String → Option (Nat × String)

/-- The state: the payloads handed to `http.Post` so far, in order. -/
structure SlackWorld where
  posts : List String
  deriving DecidableEq, Repr

/-- The result of `NotifyNewTargets`: nil, an error, or the loop model out of fuel. -/
inductive Outcome where
  | success
  | error (msg : String)
  | outOfFuel
  deriving DecidableEq, Repr

/-- The constant `maxBlocksPerMessage`. -/
def maxBlocksPerMessage : Nat := 50

/-- The header block of the message. -/
def headerBlock : Block :=
  { Kind := "header",
    Text := some { Kind := "plain_text", Text := "🎯 New Bug Bounty Targets Found" },
    Fields := [] }

/-- The block `Block{Type: "divider"}`. -/
def dividerBlock : Block := { Kind := "divider", Text := none, Fields := [] }

/-- The section block `targetBlock` of one target. -/
def targetBlock (env : SlackEnv) (target : Target) : Block :=
  { Kind := "section",
    Text := none,
    Fields := [
      { Kind := "mrkdwn", Text := "*Program Name*\n" ++ target.ProgramName },
      { Kind := "mrkdwn", Text := "*Target*\n`" ++ target.Target ++ "`" },
      { Kind := "mrkdwn", Text := "*Found*\n" ++ env.formatRFC1123 target.FirstSeen },
      { Kind := "mrkdwn", Text := "*Category*\n`" ++ target.Category ++ "`" }] }

/-- The loop `for i, target := range targets` from index `i` on, `n` being `len(targets)`:
the blocks it appends to `message.Blocks`. -/
def NotifyNewTargets.appendTargets (env : SlackEnv) (n : Nat) : Nat → List Target → List Block
  | _, [] => []
  | i, target :: rest =>
    if i < n - 1 then
      targetBlock env target :: dividerBlock ::
        NotifyNewTargets.appendTargets env n (i + 1) rest
    else
      targetBlock env target :: NotifyNewTargets.appendTargets env n (i + 1) rest

/-- One call of `http.Post`: the payload is recorded, the response is the one of the
environment for this call. -/
def httpPost (env : SlackEnv) (payload : String) (w : SlackWorld) :
    Option (Nat × String) × SlackWorld :=
  (env.post w.posts.length payload, { posts := w.posts ++ [payload] })

/-- The loop `for i := 0; i < len(message.Blocks); i += maxBlocksPerMessage`, from index `i`
on. -/
def NotifyNewTargets.sendChunks (env : SlackEnv) (blocks : List Block) :
    Nat → Nat → SlackWorld → Outcome × SlackWorld
  | 0, i, w => if i < blocks.length then (Outcome.outOfFuel, w) else (Outcome.success, w)
  | fuel + 1, i, w =>
    if i < blocks.length then
      let stop := if i + maxBlocksPerMessage > blocks.length then blocks.length
        else i + maxBlocksPerMessage
      let chunk : SlackMessage := { Blocks := (blocks.take stop).drop i }
      match env.marshal chunk with
      | none => (Outcome.error "failed to marshal slack message", w)
      | some payload =>
        match httpPost env payload w with
        | (none, w1) => (Outcome.error "failed to send slack webhook", w1)
        | (some (statusCode, body), w1) =>
          if statusCode ≠ 200 then
            (Outcome.error ("slack webhook returned status code " ++ toString statusCode
              ++ ": " ++ body), w1)
          else NotifyNewTargets.sendChunks env blocks fuel (i + maxBlocksPerMessage) w1
    else (Outcome.success, w)

/-- The method `SlackNotifier.NotifyNewTargets`. -/
def NotifyNewTargets (env : SlackEnv) (targets : List Target) (w : SlackWorld) :
    Outcome × SlackWorld :=
  if targets.length = 0 then (Outcome.success, w)
  else
    let blocks := headerBlock :: NotifyNewTargets.appendTargets env targets.length 0 targets
    NotifyNewTargets.sendChunks env blocks blocks.length 0 w

/-! ### Notions used in the statement -/

/-- The blocks of the whole notification: one header block, then the target sections in
input order, separated by dividers. -/
def messageBlocks (env : SlackEnv) (targets : List Target) : List Block :=
  headerBlock :: List.intersperse dividerBlock (targets.map (targetBlock env))

/-- The `k`-th chunk of a block list: blocks `50 k` to `50 k + 49`. -/
def chunkAt (blocks : List Block) (k : Nat) : SlackMessage :=
  { Blocks := (blocks.drop (maxBlocksPerMessage * k)).take maxBlocksPerMessage }

/-- The delivery of the chunk `chunk` as the call number `k` of `http.Post` ends with
the status code `statusCode`: the chunk is encoded, the call has no transport error, and
the response has that status code. -/
def DeliveryStatus (env : SlackEnv) (k : Nat) (chunk : SlackMessage) (statusCode : Nat) :
    Prop :=
  ∃ payload body, env.marshal chunk = some payload ∧
    env.post k payload = some (statusCode, body)

/-- The payloads `payloads` are the encodings of the messages `chunks`, in order. -/
def Encodes (env : SlackEnv) (chunks : List SlackMessage) (payloads : List String) : Prop :=
  chunks.map env.marshal = payloads.map some

/-! ### A concrete environment -/

/-- An encoding of a message that stands in for `json.Marshal` in the concrete runs: the
kinds and the field texts of its blocks. -/
def demoSlackMarshal (m : SlackMessage) : Option String :=
  some (String.intercalate ";"
    (m.Blocks.map (fun b =>
      b.Kind ++ ":" ++ String.intercalate "," (b.Fields.map (fun f => f.Text)))))

/-- An environment in which every delivery returns status 200. -/
def demoSlackEnv : SlackEnv where
  formatRFC1123 := fun t => toString t
  marshal := demoSlackMarshal
  post := fun _ _ => some (200, "ok")

/-- An environment in which the first delivery returns status 500 and the later ones
status 200. -/
def demoSlackEnvFailing : SlackEnv where
  formatRFC1123 := fun t => toString t
  marshal := demoSlackMarshal
  post := fun k _ => if k = 0 then some (500, "server error") else some (200, "ok")

/-- A list of 26 targets: with the header and the 25 dividers, 52 blocks. -/
def demoTargets : List Target :=
  (List.range 26).map (fun i =>
    { ProgramName := "P" ++ toString i, Target := "T" ++ toString i, Category := "domain",
      FirstSeen := i })

end notifier

namespace storage

/-! ## Lemmas

### Go maps -/

theorem GoMap.has_iff {V : Type} (m : GoMap V) (k : String) :
    GoMap.has m k = true ↔ ∃ v, (k, v) ∈ m := by
  unfold GoMap.has
  simp only [List.any_eq_true, decide_eq_true_eq]
  constructor
  · rintro ⟨⟨k', v⟩, hmem, rfl⟩
    exact ⟨v, hmem⟩
  · rintro ⟨v, hmem⟩
    exact ⟨(k, v), hmem, rfl⟩

theorem GoMap.mem_set_imp {V : Type} (m : GoMap V) (k : String) (v : V) (kv : String × V)
    (h : kv ∈ GoMap.set m k v) : kv = (k, v) ∨ kv ∈ m := by
  induction m with
  | nil => simp [GoMap.set] at h; exact Or.inl h
  | cons hd tl ih =>
    obtain ⟨k', v'⟩ := hd
    simp only [GoMap.set] at h
    split at h
    · rcases List.mem_cons.mp h with h | h
      · exact Or.inl h
      · exact Or.inr (List.mem_cons_of_mem _ h)
    · rcases List.mem_cons.mp h with h | h
      · exact Or.inr (h ▸ List.mem_cons_self _ _)
      · rcases ih h with h | h
        · exact Or.inl h
        · exact Or.inr (List.mem_cons_of_mem _ h)

theorem GoMap.keys_set {V : Type} (m : GoMap V) (k : String) (v : V) :
    (GoMap.set m k v).map Prod.fst = if k ∈ m.map Prod.fst then m.map Prod.fst
      else m.map Prod.fst ++ [k] := by
  induction m with
  | nil => simp [GoMap.set]
  | cons hd tl ih =>
    obtain ⟨k', v'⟩ := hd
    simp only [GoMap.set]
    by_cases hk : k' = k
    · subst hk; simp
    · have hk' : ¬ k = k' := fun h => hk h.symm
      simp only [hk, if_false, List.map_cons, ih, List.mem_cons, hk', false_or]
      split <;> simp

theorem GoMap.has_set {V : Type} (m : GoMap V) (k : String) (v : V) (k' : String) :
    (∃ v', (k', v') ∈ GoMap.set m k v) ↔ k' = k ∨ ∃ v', (k', v') ∈ m := by
  have key : ∀ (l : GoMap V), (∃ v', (k', v') ∈ l) ↔ k' ∈ l.map Prod.fst := by
    intro l; simp
  rw [key, key, GoMap.keys_set]
  split
  · constructor
    · exact Or.inr
    · rintro (h | h)
      · subst h; assumption
      · exact h
  · simp [or_comm]

theorem GoMap.nodup_set {V : Type} (m : GoMap V) (k : String) (v : V)
    (h : (m.map Prod.fst).Nodup) : ((GoMap.set m k v).map Prod.fst).Nodup := by
  rw [GoMap.keys_set]
  split
  · exact h
  · rename_i hk
    exact List.Nodup.append h (List.nodup_singleton k) (by simpa using hk)

/-- The keys of a collected map: those of the start map and those of the targets. -/
theorem GoMap.has_collect {V : Type} (key : V → String) (l : List V) (m : GoMap V)
    (k : String) :
    (∃ v, (k, v) ∈ GoMap.collect key l m) ↔ (∃ v, (k, v) ∈ m) ∨ ∃ t ∈ l, key t = k := by
  induction l generalizing m with
  | nil => simp [GoMap.collect]
  | cons t rest ih =>
    simp only [GoMap.collect, ih, GoMap.has_set, List.mem_cons, exists_eq_or_imp]
    constructor
    · rintro ((h | h) | h)
      · exact Or.inr (Or.inl h.symm)
      · exact Or.inl h
      · exact Or.inr (Or.inr h)
    · rintro (h | h | h)
      · exact Or.inl (Or.inr h)
      · exact Or.inl (Or.inl h.symm)
      · exact Or.inr h

theorem GoMap.mem_collect_imp {V : Type} (key : V → String) (l : List V) (m : GoMap V)
    (kv : String × V) (h : kv ∈ GoMap.collect key l m) :
    kv ∈ m ∨ (kv.2 ∈ l ∧ kv.1 = key kv.2) := by
  induction l generalizing m with
  | nil => exact Or.inl h
  | cons t rest ih =>
    simp only [GoMap.collect] at h
    rcases ih _ h with h | ⟨h1, h2⟩
    · rcases GoMap.mem_set_imp _ _ _ _ h with h | h
      · subst h
        exact Or.inr ⟨List.mem_cons_self _ _, rfl⟩
      · exact Or.inl h
    · exact Or.inr ⟨List.mem_cons_of_mem _ h1, h2⟩

theorem GoMap.nodup_collect {V : Type} (key : V → String) (l : List V) (m : GoMap V)
    (h : (m.map Prod.fst).Nodup) : ((GoMap.collect key l m).map Prod.fst).Nodup := by
  induction l generalizing m with
  | nil => exact h
  | cons t rest ih => exact ih _ (GoMap.nodup_set _ _ _ h)

/-! ### The loops of `CompareTargets` -/

theorem CompareTargets.findRemoved_eq (newMap : GoMap scraper.Target)
    (l : List (String × StoredTarget)) :
    CompareTargets.findRemoved newMap l
      = (l.filter (fun kt => !GoMap.has newMap kt.1)).map Prod.snd := by
  induction l with
  | nil => rfl
  | cons hd tl ih =>
    obtain ⟨k, t⟩ := hd
    simp only [CompareTargets.findRemoved, ih, List.filter_cons]
    cases GoMap.has newMap k <;> simp

theorem CompareTargets.findNew_pairs (env : Env) (sm : GoMap StoredTarget)
    (l : List (String × scraper.Target)) (w : World) :
    (CompareTargets.findNew env sm l w).1.map (fun e => (e.ProgramName, e.Target, e.Category))
      = (l.filter (fun kt => !GoMap.has sm kt.1)).map
          (fun kt => (kt.2.ProgramName, kt.2.Target, kt.2.Category)) := by
  induction l generalizing w with
  | nil => rfl
  | cons hd tl ih =>
    obtain ⟨k, t⟩ := hd
    simp only [CompareTargets.findNew, List.filter_cons]
    cases GoMap.has sm k
    · simp only [Bool.false_eq_true, if_false, readClock, Bool.not_false, if_true,
        List.map_cons, ih]
    · simp only [if_true, Bool.not_true, Bool.false_eq_true, if_false, ih]

/-! ### The loops of `UpdateTargets` -/

theorem UpdateTargets.lookup_eq_find (target : scraper.Target) (stored : List StoredTarget) :
    UpdateTargets.lookup target stored
      = stored.find? (fun s => decide (s.ProgramName = target.ProgramName
          ∧ s.Target = target.Target)) := by
  induction stored with
  | nil => rfl
  | cons hd tl ih =>
    simp only [UpdateTargets.lookup, List.find?_cons, ih]
    by_cases h : hd.ProgramName = target.ProgramName ∧ hd.Target = target.Target
    · simp [h]
    · simp [h]

theorem UpdateTargets.lookup_some (target : scraper.Target) (stored : List StoredTarget)
    (s : StoredTarget) (h : UpdateTargets.lookup target stored = some s) :
    s ∈ stored ∧ s.ProgramName = target.ProgramName ∧ s.Target = target.Target := by
  rw [UpdateTargets.lookup_eq_find] at h
  refine ⟨List.mem_of_find?_eq_some h, ?_⟩
  simpa using List.find?_some h

theorem UpdateTargets.lookup_none (target : scraper.Target) (stored : List StoredTarget) :
    UpdateTargets.lookup target stored = none ↔
      ∀ s ∈ stored, ¬ (s.ProgramName = target.ProgramName ∧ s.Target = target.Target) := by
  rw [UpdateTargets.lookup_eq_find]
  simp

theorem UpdateTargets.lookup_congr (t t' : scraper.Target) (stored : List StoredTarget)
    (hp : t.ProgramName = t'.ProgramName) (ht : t.Target = t'.Target) :
    UpdateTargets.lookup t stored = UpdateTargets.lookup t' stored := by
  rw [UpdateTargets.lookup_eq_find, UpdateTargets.lookup_eq_find, hp, ht]

theorem UpdateTargets.updatedTargets_files (env : Env) (stored : List StoredTarget)
    (l : List scraper.Target) (w : World) :
    (UpdateTargets.updatedTargets env stored l w).2.files = w.files := by
  induction l generalizing w with
  | nil => rfl
  | cons t tl ih =>
    simp only [UpdateTargets.updatedTargets]
    split
    · exact ih w
    · simp only [readClock]
      rw [ih]

theorem UpdateTargets.updatedTargets_congr (env env' : Env) (hc : env.clock = env'.clock)
    (stored : List StoredTarget) (l : List scraper.Target) (w w' : World)
    (hw : w.ticks = w'.ticks) :
    (UpdateTargets.updatedTargets env stored l w).1
      = (UpdateTargets.updatedTargets env' stored l w').1 ∧
    (UpdateTargets.updatedTargets env stored l w).2.ticks
      = (UpdateTargets.updatedTargets env' stored l w').2.ticks := by
  induction l generalizing w w' with
  | nil => exact ⟨rfl, hw⟩
  | cons t tl ih =>
    simp only [UpdateTargets.updatedTargets]
    split
    · have h := ih w w' hw
      simp only [h.1, h.2, and_self]
    · simp only [readClock]
      have h := ih { w with ticks := w.ticks + 1 } { w' with ticks := w'.ticks + 1 }
        (by simp [hw])
      rw [hw] at h
      simp only [hc, hw, h.1, h.2, and_self]

/-- The persisted list has one entry per fetched target, in order, with its pair. -/
theorem UpdateTargets.updatedTargets_pairs (env : Env) (stored : List StoredTarget)
    (l : List scraper.Target) (w : World) :
    (UpdateTargets.updatedTargets env stored l w).1.map (fun e => (e.ProgramName, e.Target))
      = l.map (fun t => (t.ProgramName, t.Target)) := by
  induction l generalizing w with
  | nil => rfl
  | cons t tl ih =>
    simp only [UpdateTargets.updatedTargets]
    split
    · rename_i found hfound
      have h := UpdateTargets.lookup_some _ _ _ hfound
      simp only [List.map_cons, ih, h.2.1, h.2.2]
    · simp only [readClock, List.map_cons, ih]

/-- Every entry of the persisted list comes from a fetched target: it is the first stored
entry with that pair, or, when there is none, a new entry with the fields of the fetched
target. -/
theorem UpdateTargets.updatedTargets_mem (env : Env) (stored : List StoredTarget)
    (l : List scraper.Target) (w : World) (e : StoredTarget)
    (h : e ∈ (UpdateTargets.updatedTargets env stored l w).1) :
    ∃ t ∈ l, UpdateTargets.lookup t stored = some e ∨
      (UpdateTargets.lookup t stored = none ∧ e.ProgramName = t.ProgramName ∧
        e.Target = t.Target ∧ e.Category = t.Category ∧ ∃ n, e.FirstSeen = env.clock n) := by
  induction l generalizing w with
  | nil => simp [UpdateTargets.updatedTargets] at h
  | cons t tl ih =>
    simp only [UpdateTargets.updatedTargets] at h
    split at h
    · rename_i found hfound
      rcases List.mem_cons.mp h with h | h
      · exact ⟨t, List.mem_cons_self _ _, Or.inl (h ▸ hfound)⟩
      · obtain ⟨t', ht', hh⟩ := ih _ h
        exact ⟨t', List.mem_cons_of_mem _ ht', hh⟩
    · rename_i hnone
      simp only [readClock] at h
      rcases List.mem_cons.mp h with h | h
      · refine ⟨t, List.mem_cons_self _ _, Or.inr ⟨hnone, ?_⟩⟩
        subst h
        exact ⟨rfl, rfl, rfl, _, rfl⟩
      · obtain ⟨t', ht', hh⟩ := ih _ h
        exact ⟨t', List.mem_cons_of_mem _ ht', hh⟩

/-! ### `CompareTargets` -/

theorem CompareTargets.mem_storedMap (l : List StoredTarget) (kv : String × StoredTarget)
    (h : kv ∈ CompareTargets.storedMap l) : kv.2 ∈ l ∧ kv.1 = storedKey kv.2 := by
  rcases GoMap.mem_collect_imp storedKey l [] kv h with h | h
  · simp at h
  · exact h

theorem CompareTargets.mem_newMap (l : List scraper.Target) (kv : String × scraper.Target)
    (h : kv ∈ CompareTargets.newMap l) : kv.2 ∈ l ∧ kv.1 = newKey kv.2 := by
  rcases GoMap.mem_collect_imp newKey l [] kv h with h | h
  · simp at h
  · exact h

theorem CompareTargets.has_storedMap (l : List StoredTarget) (k : String) :
    GoMap.has (CompareTargets.storedMap l) k = true ↔ ∃ t ∈ l, storedKey t = k := by
  rw [GoMap.has_iff, CompareTargets.storedMap, GoMap.has_collect]
  simp

theorem CompareTargets.has_newMap (l : List scraper.Target) (k : String) :
    GoMap.has (CompareTargets.newMap l) k = true ↔ ∃ t ∈ l, newKey t = k := by
  rw [GoMap.has_iff, CompareTargets.newMap, GoMap.has_collect]
  simp

theorem CompareTargets.nodup_storedMap (l : List StoredTarget) :
    ((CompareTargets.storedMap l).map Prod.fst).Nodup :=
  GoMap.nodup_collect storedKey l [] List.nodup_nil

theorem CompareTargets.nodup_newMap (l : List scraper.Target) :
    ((CompareTargets.newMap l).map Prod.fst).Nodup :=
  GoMap.nodup_collect newKey l [] List.nodup_nil

theorem Storage.CompareTargets_new (env : Env) (newTargets : List scraper.Target)
    (storedHistory : TargetHistory) (w : World) :
    (Storage.CompareTargets env newTargets storedHistory w).1.NewTargets
      = (CompareTargets.findNew env (CompareTargets.storedMap storedHistory.Targets)
          (env.rangeNew.order (CompareTargets.newMap newTargets)) w).1 := rfl

theorem Storage.CompareTargets_removed (env : Env) (newTargets : List scraper.Target)
    (storedHistory : TargetHistory) (w : World) :
    (Storage.CompareTargets env newTargets storedHistory w).1.Removed
      = CompareTargets.findRemoved (CompareTargets.newMap newTargets)
          (env.rangeStored.order (CompareTargets.storedMap storedHistory.Targets)) := rfl

/-- An entry is reported as added exactly when it has the fields of some fetched target
that `newMap` holds under a key that `storedMap` does not have. -/
theorem Storage.CompareTargets_mem_new (env : Env) (newTargets : List scraper.Target)
    (storedHistory : TargetHistory) (w : World) (p t c : String) :
    (∃ e ∈ (Storage.CompareTargets env newTargets storedHistory w).1.NewTargets,
        e.ProgramName = p ∧ e.Target = t ∧ e.Category = c) ↔
      ∃ kv ∈ CompareTargets.newMap newTargets,
        (¬ ∃ s ∈ storedHistory.Targets, storedKey s = kv.1) ∧
        kv.2.ProgramName = p ∧ kv.2.Target = t ∧ kv.2.Category = c := by
  have h := CompareTargets.findNew_pairs env (CompareTargets.storedMap storedHistory.Targets)
    (env.rangeNew.order (CompareTargets.newMap newTargets)) w
  rw [Storage.CompareTargets_new]
  have h1 : (∃ e ∈ (CompareTargets.findNew env
        (CompareTargets.storedMap storedHistory.Targets)
        (env.rangeNew.order (CompareTargets.newMap newTargets)) w).1,
        e.ProgramName = p ∧ e.Target = t ∧ e.Category = c) ↔
      (p, t, c) ∈ (CompareTargets.findNew env
        (CompareTargets.storedMap storedHistory.Targets)
        (env.rangeNew.order (CompareTargets.newMap newTargets)) w).1.map
          (fun e => (e.ProgramName, e.Target, e.Category)) := by
    simp [Prod.ext_iff]
  rw [h1, h]
  simp only [List.mem_map, List.mem_filter, Bool.not_eq_true', Prod.mk.injEq,
    (env.rangeNew.perm _).mem_iff]
  constructor
  · rintro ⟨kv, ⟨hmem, hhas⟩, h⟩
    refine ⟨kv, hmem, ?_, h⟩
    rw [← CompareTargets.has_storedMap, hhas]; simp
  · rintro ⟨kv, hmem, hhas, h⟩
    refine ⟨kv, ⟨hmem, ?_⟩, h⟩
    rw [← CompareTargets.has_storedMap] at hhas
    simpa using hhas

/-- An entry is reported as removed exactly when `storedMap` holds it under a key that
`newMap` does not have. -/
theorem Storage.CompareTargets_mem_removed (env : Env) (newTargets : List scraper.Target)
    (storedHistory : TargetHistory) (w : World) (e : StoredTarget) :
    e ∈ (Storage.CompareTargets env newTargets storedHistory w).1.Removed ↔
      ∃ k, (k, e) ∈ CompareTargets.storedMap storedHistory.Targets ∧
        ¬ ∃ f ∈ newTargets, newKey f = k := by
  rw [Storage.CompareTargets_removed, CompareTargets.findRemoved_eq]
  simp only [List.mem_map, List.mem_filter, Bool.not_eq_true', (env.rangeStored.perm _).mem_iff]
  constructor
  · rintro ⟨⟨k, e'⟩, ⟨hmem, hhas⟩, rfl⟩
    refine ⟨k, hmem, ?_⟩
    rw [← CompareTargets.has_newMap, hhas]; simp
  · rintro ⟨k, hmem, hhas⟩
    refine ⟨(k, e), ⟨hmem, ?_⟩, rfl⟩
    rw [← CompareTargets.has_newMap] at hhas
    simpa using hhas

/-! ### The identity key -/

theorem list_split_inj {α : Type} (a : α) : ∀ (l₁ l₂ r₁ r₂ : List α), a ∉ l₁ → a ∉ l₂ →
    l₁ ++ a :: r₁ = l₂ ++ a :: r₂ → l₁ = l₂ ∧ r₁ = r₂
  | [], [], _, _, _, _, h => ⟨rfl, by simpa using h⟩
  | [], b :: l₂, _, _, _, h₂, h => by
    simp only [List.nil_append, List.cons_append, List.cons.injEq] at h
    exact absurd (h.1 ▸ List.mem_cons_self _ _) h₂
  | b :: l₁, [], _, _, h₁, _, h => by
    simp only [List.nil_append, List.cons_append, List.cons.injEq] at h
    exact absurd (h.1 ▸ List.mem_cons_self _ _) h₁
  | b :: l₁, c :: l₂, r₁, r₂, h₁, h₂, h => by
    simp only [List.cons_append, List.cons.injEq] at h
    have ih := list_split_inj a l₁ l₂ r₁ r₂ (fun hm => h₁ (List.mem_cons_of_mem _ hm))
      (fun hm => h₂ (List.mem_cons_of_mem _ hm)) h.2
    exact ⟨by rw [h.1, ih.1], ih.2⟩

/-- The key determines the pair when the program names do not contain the separator. -/
theorem key_inj (p t p' t' : String) (hp : hasSeparator p = false)
    (hp' : hasSeparator p' = false) (h : p ++ "|" ++ t = p' ++ "|" ++ t') :
    p = p' ∧ t = t' := by
  have hd := congrArg String.data h
  simp only [String.data_append, List.append_assoc] at hd
  have h1 : '|' ∉ p.data := by simpa [hasSeparator] using hp
  have h2 : '|' ∉ p'.data := by simpa [hasSeparator] using hp'
  have := list_split_inj '|' p.data p'.data t.data t'.data h1 h2 hd
  exact ⟨String.ext this.1, String.ext this.2⟩

theorem Storage.CompareTargets_diffByKey (env : Env) (F : List scraper.Target)
    (S : TargetHistory) (w : World) :
    DiffByKey F S (Storage.CompareTargets env F S w).1 := by
  refine ⟨fun k => ?_, fun k => ?_, fun e he => ?_, fun e he => ?_⟩
  · constructor
    · rintro ⟨e, he, hk⟩
      obtain ⟨kv, hmem, hno, h1, h2, -⟩ :=
        (Storage.CompareTargets_mem_new env F S w e.ProgramName e.Target e.Category).mp
          ⟨e, he, rfl, rfl, rfl⟩
      have hkv := CompareTargets.mem_newMap F kv hmem
      have hkey : newKey kv.2 = k := by
        rw [← hk]; simp only [newKey, storedKey, h1, h2]
      exact ⟨⟨kv.2, hkv.1, hkey⟩, by rw [← hkey, ← hkv.2]; exact hno⟩
    · rintro ⟨⟨f, hf, hk⟩, hno⟩
      obtain ⟨v, hv⟩ := (GoMap.has_iff _ _).mp
        ((CompareTargets.has_newMap F k).mpr ⟨f, hf, hk⟩)
      have hkv := CompareTargets.mem_newMap F (k, v) hv
      obtain ⟨e, he, h1, h2, -⟩ :=
        (Storage.CompareTargets_mem_new env F S w v.ProgramName v.Target v.Category).mpr
          ⟨(k, v), hv, hno, rfl, rfl, rfl⟩
      refine ⟨e, he, ?_⟩
      have : k = newKey v := hkv.2
      rw [this]; simp only [newKey, storedKey, h1, h2]
  · constructor
    · rintro ⟨e, he, hk⟩
      obtain ⟨k', hmem, hno⟩ := (Storage.CompareTargets_mem_removed env F S w e).mp he
      have hkv := CompareTargets.mem_storedMap S.Targets (k', e) hmem
      have : k' = k := by rw [← hk]; exact hkv.2
      subst this
      exact ⟨⟨e, hkv.1, hk⟩, hno⟩
    · rintro ⟨⟨s, hs, hk⟩, hno⟩
      obtain ⟨v, hv⟩ := (GoMap.has_iff _ _).mp
        ((CompareTargets.has_storedMap S.Targets k).mpr ⟨s, hs, hk⟩)
      have hkv := CompareTargets.mem_storedMap S.Targets (k, v) hv
      exact ⟨v, (Storage.CompareTargets_mem_removed env F S w v).mpr ⟨k, hv, hno⟩,
        hkv.2.symm⟩
  · obtain ⟨k', hmem, -⟩ := (Storage.CompareTargets_mem_removed env F S w e).mp he
    exact (CompareTargets.mem_storedMap S.Targets (k', e) hmem).1

  · obtain ⟨kv, hmem, -, h1, h2, h3⟩ :=
      (Storage.CompareTargets_mem_new env F S w e.ProgramName e.Target e.Category).mp
        ⟨e, he, rfl, rfl, rfl⟩
    exact ⟨kv.2, (CompareTargets.mem_newMap F kv hmem).1, h1.symm, h2.symm, h3.symm⟩

/-- A diff by key is a diff by pair when no program name contains the separator. -/
theorem DiffByKey.toPair (F : List scraper.Target) (S : TargetHistory) (diff : TargetDiff)
    (hF : ∀ f ∈ F, hasSeparator f.ProgramName = false)
    (hS : ∀ s ∈ S.Targets, hasSeparator s.ProgramName = false)
    (h : DiffByKey F S diff) : DiffByPair F S diff := by
  obtain ⟨hnew, hrem, hmem, hfields⟩ := h
  refine ⟨fun p t => ?_, fun p t => ?_, hmem⟩
  · constructor
    · rintro ⟨e, he, rfl, rfl⟩
      obtain ⟨f, hf, h1, h2, -⟩ := hfields e he
      refine ⟨⟨f, hf, h1.symm, h2.symm⟩, ?_⟩
      rintro ⟨s, hs, h3, h4⟩
      exact ((hnew (storedKey e)).mp ⟨e, he, rfl⟩).2
        ⟨s, hs, by simp only [storedKey, h3, h4]⟩
    · rintro ⟨⟨f, hf, rfl, rfl⟩, hno⟩
      have hk : ¬ ∃ s ∈ S.Targets, storedKey s = newKey f := by
        rintro ⟨s, hs, hk⟩
        exact hno ⟨s, hs, key_inj _ _ _ _ (hS s hs) (hF f hf) hk⟩
      obtain ⟨e, he, hke⟩ := (hnew (newKey f)).mpr ⟨⟨f, hf, rfl⟩, hk⟩
      obtain ⟨f', hf', h1, h2, -⟩ := hfields e he
      refine ⟨e, he, ?_⟩
      rw [h1, h2]
      refine key_inj _ _ _ _ (hF f' hf') (hF f hf) ?_
      rw [← h1, ← h2]; exact hke
  · constructor
    · rintro ⟨e, he, rfl, rfl⟩
      refine ⟨⟨e, hmem e he, rfl, rfl⟩, ?_⟩
      rintro ⟨f, hf, h3, h4⟩
      exact ((hrem (storedKey e)).mp ⟨e, he, rfl⟩).2
        ⟨f, hf, by simp only [storedKey, newKey, h3, h4]⟩
    · rintro ⟨⟨s, hs, rfl, rfl⟩, hno⟩
      have hk : ¬ ∃ f ∈ F, newKey f = storedKey s := by
        rintro ⟨f, hf, hk⟩
        exact hno ⟨f, hf, key_inj _ _ _ _ (hF f hf) (hS s hs) hk⟩
      obtain ⟨e, he, hke⟩ := (hrem (storedKey s)).mpr ⟨⟨s, hs, rfl⟩, hk⟩
      exact ⟨e, he, key_inj _ _ _ _ (hS e (hmem e he)) (hS s hs) hke⟩

/-! ### `UpdateTargets` -/

/-- On a host where the zone is loaded, a call of `getISTTime()` is the reading
`readClock`. -/
theorem getISTTime_of_zoneLoaded (env : Env) (w : World) (h : env.zoneLoaded = true) :
    getISTTime env w = some (readClock env w) := by
  simp [getISTTime, h]

theorem UpdateTargets.reconcile_diff (env : Env) (s : Storage) (F : List scraper.Target)
    (history : TargetHistory) (w : World) :
    (UpdateTargets.reconcile env s F history w).1
      = (Storage.CompareTargets env F history w).1 := rfl

theorem UpdateTargets.reconcile_targets (env : Env) (s : Storage) (F : List scraper.Target)
    (history : TargetHistory) (w : World) :
    (UpdateTargets.reconcile env s F history w).2.1.Targets
      = (UpdateTargets.updatedTargets env history.Targets F
          (UpdateTargets.exportNewTargets env s (Storage.CompareTargets env F history w).1
            (Storage.CompareTargets env F history w).2)).1 := rfl

theorem Storage.SaveTargets_none (env : Env) (s : Storage) (history : TargetHistory)
    (w : World) (h : (Storage.SaveTargets env s history w).1 = none) :
    Persists env s (Storage.SaveTargets env s history w).2 history := by
  unfold Storage.SaveTargets at h ⊢
  by_cases hmk : env.mkdirAllOk = false
  · simp [hmk] at h
  · cases hdata : env.marshalIndent history with
    | none => simp [hmk, hdata] at h
    | some data =>
      by_cases hwr : env.writeTargetsOk = false
      · simp [hmk, hdata, hwr] at h
      · simp only [hmk, hwr, if_false]
        exact ⟨data, hdata, by simp [writeFile]⟩

/-- A successful run: the load returned a history, the diff is the one of `reconcile`, and
the history of `reconcile` is in the snapshot file. -/
theorem Storage.UpdateTargets_ok (env : Env) (s : Storage) (F : List scraper.Target)
    (w : World) (diff : TargetDiff)
    (h : (Storage.UpdateTargets env s F w).1 = Result.ok diff) :
    ∃ history w1, Storage.LoadTargets env s w = (Result.ok history, w1) ∧
      diff = (UpdateTargets.reconcile env s (UpdateTargets.filteredTargets F) history w1).1 ∧
      Persists env s (Storage.UpdateTargets env s F w).2
        (UpdateTargets.reconcile env s (UpdateTargets.filteredTargets F) history w1).2.1 := by
  unfold Storage.UpdateTargets at h ⊢
  rcases hload : Storage.LoadTargets env s w with ⟨r, w1⟩
  rw [hload] at h
  cases r with
  | panic => simp at h
  | error msg => simp at h
  | ok history =>
    refine ⟨history, w1, rfl, ?_⟩
    simp only at h ⊢
    rcases hsave : Storage.SaveTargets env s
      (UpdateTargets.reconcile env s (UpdateTargets.filteredTargets F) history w1).2.1
      (UpdateTargets.reconcile env s (UpdateTargets.filteredTargets F) history w1).2.2
      with ⟨err, w6⟩
    rw [hsave] at h
    cases err with
    | some msg => simp at h
    | none =>
      simp only [Result.ok.injEq] at h
      refine ⟨h.symm, ?_⟩
      have := Storage.SaveTargets_none env s _ _ (by rw [hsave])
      rw [hsave] at this
      exact this

theorem UpdateTargets.mem_filteredTargets (F : List scraper.Target) (f : scraper.Target) :
    f ∈ UpdateTargets.filteredTargets F ↔ f ∈ F ∧ f.Target ≠ "NO_IN_SCOPE_TABLE" := by
  simp [UpdateTargets.filteredTargets]

/-- When a stored entry has the pair of the fetched target `f`, every entry of the new list
with that pair is the first such stored entry. -/
theorem UpdateTargets.updatedTargets_carried (env : Env) (stored : List StoredTarget)
    (l : List scraper.Target) (w : World) (f : scraper.Target) (st : StoredTarget)
    (hst : UpdateTargets.lookup f stored = some st) (e : StoredTarget)
    (he : e ∈ (UpdateTargets.updatedTargets env stored l w).1)
    (hp : e.ProgramName = f.ProgramName) (ht : e.Target = f.Target) : e = st := by
  obtain ⟨t, -, h | ⟨hnone, h1, h2, -⟩⟩ := UpdateTargets.updatedTargets_mem env stored l w e he
  · have h' := UpdateTargets.lookup_some _ _ _ h
    have := UpdateTargets.lookup_congr t f stored (h'.2.1.symm.trans hp) (h'.2.2.symm.trans ht)
    rw [h, hst] at this
    exact Option.some.inj this
  · have := UpdateTargets.lookup_congr t f stored (h1.symm.trans hp) (h2.symm.trans ht)
    rw [hnone, hst] at this
    cases this

/-- Every fetched target has an entry with its pair in the new list. -/
theorem UpdateTargets.updatedTargets_exists (env : Env) (stored : List StoredTarget)
    (l : List scraper.Target) (w : World) (f : scraper.Target) (hf : f ∈ l) :
    ∃ e ∈ (UpdateTargets.updatedTargets env stored l w).1,
      e.ProgramName = f.ProgramName ∧ e.Target = f.Target := by
  have h : (f.ProgramName, f.Target) ∈ l.map (fun t => (t.ProgramName, t.Target)) :=
    List.mem_map.mpr ⟨f, hf, rfl⟩
  rw [← UpdateTargets.updatedTargets_pairs env stored l w] at h
  obtain ⟨e, he, heq⟩ := List.mem_map.mp h
  simp only [Prod.mk.injEq] at heq
  exact ⟨e, he, heq⟩

/-- Every entry of the new list has the pair of a fetched target. -/
theorem UpdateTargets.updatedTargets_fetched (env : Env) (stored : List StoredTarget)
    (l : List scraper.Target) (w : World) (e : StoredTarget)
    (he : e ∈ (UpdateTargets.updatedTargets env stored l w).1) :
    ∃ f ∈ l, e.ProgramName = f.ProgramName ∧ e.Target = f.Target := by
  have h : (e.ProgramName, e.Target) ∈
      (UpdateTargets.updatedTargets env stored l w).1.map
        (fun e => (e.ProgramName, e.Target)) := List.mem_map.mpr ⟨e, he, rfl⟩
  rw [UpdateTargets.updatedTargets_pairs env stored l w] at h
  obtain ⟨f, hf, heq⟩ := List.mem_map.mp h
  simp only [Prod.mk.injEq] at heq
  exact ⟨f, hf, heq.1.symm, heq.2.symm⟩

theorem UpdateTargets.lookup_isSome (f : scraper.Target) (stored : List StoredTarget)
    (h : ∃ st ∈ stored, st.ProgramName = f.ProgramName ∧ st.Target = f.Target) :
    ∃ st, UpdateTargets.lookup f stored = some st := by
  cases hl : UpdateTargets.lookup f stored with
  | some st => exact ⟨st, rfl⟩
  | none =>
    obtain ⟨st, hst, hp⟩ := h
    exact absurd hp ((UpdateTargets.lookup_none f stored).mp hl st hst)

theorem TargetDiff.eq_empty (d : TargetDiff) (h1 : d.NewTargets = []) (h2 : d.Removed = []) :
    d = ⟨[], []⟩ := by
  cases d
  simp only at h1 h2
  rw [h1, h2]

/-- Comparing a fetched list with a snapshot that has the same list of pairs gives an empty
diff. -/
theorem Storage.CompareTargets_same_pairs (env : Env) (F : List scraper.Target)
    (S : TargetHistory) (w : World)
    (h : S.Targets.map (fun e => (e.ProgramName, e.Target))
      = F.map (fun t => (t.ProgramName, t.Target))) :
    (Storage.CompareTargets env F S w).1 = ⟨[], []⟩ := by
  obtain ⟨hnew, hrem, -, -⟩ := Storage.CompareTargets_diffByKey env F S w
  apply TargetDiff.eq_empty
  · rw [List.eq_nil_iff_forall_not_mem]
    intro e he
    obtain ⟨⟨f, hf, hk⟩, hno⟩ := (hnew (storedKey e)).mp ⟨e, he, rfl⟩
    have hm : (f.ProgramName, f.Target) ∈ F.map (fun t => (t.ProgramName, t.Target)) :=
      List.mem_map.mpr ⟨f, hf, rfl⟩
    rw [← h] at hm
    obtain ⟨st, hst, heq⟩ := List.mem_map.mp hm
    simp only [Prod.mk.injEq] at heq
    exact hno ⟨st, hst, by rw [← hk]; simp only [storedKey, newKey, heq.1, heq.2]⟩
  · rw [List.eq_nil_iff_forall_not_mem]
    intro e he
    obtain ⟨⟨st, hst, hk⟩, hno⟩ := (hrem (storedKey e)).mp ⟨e, he, rfl⟩
    have hm : (st.ProgramName, st.Target) ∈
        S.Targets.map (fun e => (e.ProgramName, e.Target)) :=
      List.mem_map.mpr ⟨st, hst, rfl⟩
    rw [h] at hm
    obtain ⟨f, hf, heq⟩ := List.mem_map.mp hm
    simp only [Prod.mk.injEq] at heq
    exact hno ⟨f, hf, by rw [← hk]; simp only [storedKey, newKey, heq.1, heq.2]⟩

/-! ### Pairs without repetition -/

theorem GoMap.nodup_pairs {V : Type} (key : V → String) (pair : V → String × String)
    (hkey : ∀ v, key v = (pair v).1 ++ "|" ++ (pair v).2) (m : GoMap V)
    (hm : ∀ kv ∈ m, kv.1 = key kv.2) (hnd : (m.map Prod.fst).Nodup) :
    (m.map (fun kv => pair kv.2)).Nodup := by
  have h : m.map Prod.fst
      = (m.map (fun kv => pair kv.2)).map (fun q => q.1 ++ "|" ++ q.2) := by
    rw [List.map_map]
    apply List.map_congr_left
    intro kv hkv
    simp only [Function.comp, hm kv hkv, hkey]
  rw [h] at hnd
  exact List.Nodup.of_map _ hnd

theorem Storage.CompareTargets_nodup_new (env : Env) (F : List scraper.Target)
    (S : TargetHistory) (w : World) :
    ((Storage.CompareTargets env F S w).1.NewTargets.map
      (fun e => (e.ProgramName, e.Target))).Nodup := by
  have h := CompareTargets.findNew_pairs env (CompareTargets.storedMap S.Targets)
    (env.rangeNew.order (CompareTargets.newMap F)) w
  have h2 := congrArg (List.map (fun x : String × String × String => (x.1, x.2.1))) h
  simp only [List.map_map, Function.comp_def] at h2
  rw [Storage.CompareTargets_new, h2]
  have hnd := GoMap.nodup_pairs newKey (fun t => (t.ProgramName, t.Target)) (fun _ => rfl)
    (CompareTargets.newMap F) (fun kv hkv => (CompareTargets.mem_newMap F kv hkv).2)
    (CompareTargets.nodup_newMap F)
  have hperm := (env.rangeNew.perm (CompareTargets.newMap F)).map
    (fun kv : String × scraper.Target => (kv.2.ProgramName, kv.2.Target))
  exact List.Nodup.sublist (List.Sublist.map _ (List.filter_sublist _))
    (hperm.nodup_iff.mpr hnd)

theorem Storage.CompareTargets_nodup_removed (env : Env) (F : List scraper.Target)
    (S : TargetHistory) (w : World) :
    ((Storage.CompareTargets env F S w).1.Removed.map
      (fun e => (e.ProgramName, e.Target))).Nodup := by
  rw [Storage.CompareTargets_removed, CompareTargets.findRemoved_eq, List.map_map]
  have hnd := GoMap.nodup_pairs storedKey (fun t => (t.ProgramName, t.Target)) (fun _ => rfl)
    (CompareTargets.storedMap S.Targets)
    (fun kv hkv => (CompareTargets.mem_storedMap S.Targets kv hkv).2)
    (CompareTargets.nodup_storedMap S.Targets)
  have hperm := (env.rangeStored.perm (CompareTargets.storedMap S.Targets)).map
    (fun kv : String × StoredTarget => (kv.2.ProgramName, kv.2.Target))
  exact List.Nodup.sublist (List.Sublist.map _ (List.filter_sublist _))
    (hperm.nodup_iff.mpr hnd)

/-- The classification of the pairs, from a diff by pair and a new list built by the loop
of `UpdateTargets`. -/
theorem UpdateTargets.classified (env : Env) (stored : List StoredTarget)
    (F : List scraper.Target) (w : World) (diff : TargetDiff) (lastUpdated : Nat)
    (hd : DiffByPair F ⟨lastUpdated, stored⟩ diff) :
    Classified stored F diff (UpdateTargets.updatedTargets env stored F w).1 := by
  intro p t hin
  have hinF : (∃ e ∈ (UpdateTargets.updatedTargets env stored F w).1,
      e.ProgramName = p ∧ e.Target = t) ↔ ∃ f ∈ F, f.ProgramName = p ∧ f.Target = t := by
    constructor
    · rintro ⟨e, he, rfl, rfl⟩
      obtain ⟨f, hf, h1, h2⟩ := UpdateTargets.updatedTargets_fetched env stored F w e he
      exact ⟨f, hf, h1.symm, h2.symm⟩
    · rintro ⟨f, hf, rfl, rfl⟩
      exact UpdateTargets.updatedTargets_exists env stored F w f hf
  have hcar : Carried stored (UpdateTargets.updatedTargets env stored F w).1 p t ↔
      (∃ st ∈ stored, st.ProgramName = p ∧ st.Target = t) ∧
        ∃ f ∈ F, f.ProgramName = p ∧ f.Target = t := by
    constructor
    · rintro ⟨e, he, hes, h1, h2⟩
      exact ⟨⟨e, hes, h1, h2⟩, hinF.mp ⟨e, he, h1, h2⟩⟩
    · rintro ⟨hS, f, hf, rfl, rfl⟩
      obtain ⟨st, hst⟩ := UpdateTargets.lookup_isSome f stored hS
      obtain ⟨e, he, h1, h2⟩ := UpdateTargets.updatedTargets_exists env stored F w f hf
      have := UpdateTargets.updatedTargets_carried env stored F w f st hst e he h1 h2
      exact ⟨e, he, this ▸ (UpdateTargets.lookup_some _ _ _ hst).1, h1, h2⟩
  have hadd : Added diff (UpdateTargets.updatedTargets env stored F w).1 p t ↔
      (∃ f ∈ F, f.ProgramName = p ∧ f.Target = t) ∧
        ¬ ∃ st ∈ stored, st.ProgramName = p ∧ st.Target = t := by
    unfold Added
    rw [hinF, hd.1 p t]
    exact ⟨fun h => h.1, fun h => ⟨h, h.1⟩⟩
  have hrem : Removed diff (UpdateTargets.updatedTargets env stored F w).1 p t ↔
      (∃ st ∈ stored, st.ProgramName = p ∧ st.Target = t) ∧
        ¬ ∃ f ∈ F, f.ProgramName = p ∧ f.Target = t := by
    unfold Removed
    rw [hinF, hd.2.1 p t]
    exact ⟨fun h => h.1, fun h => ⟨h, h.2⟩⟩
  unfold ExactlyOne
  rw [hcar, hadd, hrem]
  by_cases hS : ∃ st ∈ stored, st.ProgramName = p ∧ st.Target = t
  · by_cases hF : ∃ f ∈ F, f.ProgramName = p ∧ f.Target = t
    · exact Or.inl ⟨⟨hS, hF⟩, fun h => h.2 hS, fun h => h.2 hF⟩
    · exact Or.inr (Or.inr ⟨fun h => hF h.2, fun h => hF h.1, hS, hF⟩)
  · by_cases hF : ∃ f ∈ F, f.ProgramName = p ∧ f.Target = t
    · exact Or.inr (Or.inl ⟨fun h => hS h.1, ⟨hF, hS⟩, fun h => hS h.1⟩)
    · exact absurd hin (fun h => h.elim hS hF)

/-! ### The export of the additions and the save -/

theorem CompareTargets.findNew_env (env env' : Env) (hc : env.clock = env'.clock)
    (sm : GoMap StoredTarget) (l : List (String × scraper.Target)) (w : World) :
    CompareTargets.findNew env sm l w = CompareTargets.findNew env' sm l w := by
  induction l generalizing w with
  | nil => rfl
  | cons hd tl ih =>
    obtain ⟨k, t⟩ := hd
    simp only [CompareTargets.findNew, readClock, hc, ih]

theorem Storage.CompareTargets_withExportWrite (env : Env) (b : Bool)
    (F : List scraper.Target) (S : TargetHistory) (w : World) :
    Storage.CompareTargets (env.withExportWrite b) F S w = Storage.CompareTargets env F S w := by
  unfold Storage.CompareTargets
  simp only [CompareTargets.findNew_env (env.withExportWrite b) env rfl]
  rfl

/-- The export branch takes one reading of the clock, whatever happens to the write. -/
theorem UpdateTargets.exportNewTargets_ticks (env : Env) (s : Storage) (diff : TargetDiff)
    (w : World) : (UpdateTargets.exportNewTargets env s diff w).ticks = w.ticks + 1 := by
  unfold UpdateTargets.exportNewTargets Storage.SaveNewTargets
  simp only [readClock]
  split
  · split
    · rfl
    · split <;> rfl
  · split
    · rfl
    · split <;> rfl

/-- When the history is encoded and the write succeeds, the export file holds the added
list of the diff. -/
theorem UpdateTargets.exportNewTargets_holds (env : Env) (s : Storage) (diff : TargetDiff)
    (w : World) (hw : env.writeNewTargetsOk = true)
    (hm : env.marshalIndent (UpdateTargets.exportHistory env diff w) ≠ none) :
    ∃ data, env.marshalIndent (UpdateTargets.exportHistory env diff w) = some data ∧
      (UpdateTargets.exportNewTargets env s diff w).files (env.newTargetsPath s.filePath)
        = FileState.present data.length (some data) := by
  unfold UpdateTargets.exportHistory at hm ⊢
  unfold UpdateTargets.exportNewTargets Storage.SaveNewTargets
  simp only [readClock, hw] at hm ⊢
  cases hd : env.marshalIndent ⟨env.clock w.ticks, diff.NewTargets⟩ with
  | none => exact absurd hd hm
  | some data =>
    refine ⟨data, rfl, ?_⟩
    by_cases hlen : diff.NewTargets.length > 0
    · simp [hlen, hd, writeFile]
    · have hnil : diff.NewTargets = [] := by
        cases hl : diff.NewTargets with
        | nil => rfl
        | cons a l => rw [hl] at hlen; simp at hlen
      rw [hnil] at hd
      simp [hnil, hd, writeFile]

theorem UpdateTargets.reconcile_withExportWrite (env : Env) (b : Bool) (s : Storage)
    (F : List scraper.Target) (history : TargetHistory) (w : World) :
    (UpdateTargets.reconcile (env.withExportWrite b) s F history w).1
      = (UpdateTargets.reconcile env s F history w).1 ∧
    (UpdateTargets.reconcile (env.withExportWrite b) s F history w).2.1
      = (UpdateTargets.reconcile env s F history w).2.1 := by
  unfold UpdateTargets.reconcile
  simp only [Storage.CompareTargets_withExportWrite, readClock]
  have h := UpdateTargets.updatedTargets_congr (env.withExportWrite b) env rfl history.Targets F
    (UpdateTargets.exportNewTargets (env.withExportWrite b) s
      (Storage.CompareTargets env F history w).1 (Storage.CompareTargets env F history w).2)
    (UpdateTargets.exportNewTargets env s
      (Storage.CompareTargets env F history w).1 (Storage.CompareTargets env F history w).2)
    (by rw [UpdateTargets.exportNewTargets_ticks, UpdateTargets.exportNewTargets_ticks])
  refine ⟨trivial, ?_⟩
  rw [h.1, h.2]
  rfl

/-- The error returned by `SaveTargets` does not depend on the world, and not on the
outcome of the write to `new-targets.json`. -/
theorem Storage.SaveTargets_error (env : Env) (b : Bool) (s : Storage)
    (history : TargetHistory) (w w' : World) :
    (Storage.SaveTargets (env.withExportWrite b) s history w).1
      = (Storage.SaveTargets env s history w').1 := by
  unfold Storage.SaveTargets Env.withExportWrite
  by_cases h1 : env.mkdirAllOk = false
  · simp [h1]
  · cases h2 : env.marshalIndent history with
    | none => simp [h1, h2]
    | some data => by_cases h3 : env.writeTargetsOk = false <;> simp [h1, h2, h3]

/-- The result of `UpdateTargets`, from the load, `reconcile` and the save. -/
theorem Storage.UpdateTargets_result (env : Env) (s : Storage) (F : List scraper.Target)
    (w : World) (history : TargetHistory) (w1 : World)
    (hload : Storage.LoadTargets env s w = (Result.ok history, w1)) :
    (Storage.UpdateTargets env s F w).1 =
      match (Storage.SaveTargets env s
        (UpdateTargets.reconcile env s (UpdateTargets.filteredTargets F) history w1).2.1
        (UpdateTargets.reconcile env s (UpdateTargets.filteredTargets F) history w1).2.2).1 with
      | some msg => Result.error ("failed to save updated targets: " ++ msg)
      | none => Result.ok
          (UpdateTargets.reconcile env s (UpdateTargets.filteredTargets F) history w1).1 := by
  unfold Storage.UpdateTargets
  rw [hload]
  simp only
  rcases hsave : Storage.SaveTargets env s
    (UpdateTargets.reconcile env s (UpdateTargets.filteredTargets F) history w1).2.1
    (UpdateTargets.reconcile env s (UpdateTargets.filteredTargets F) history w1).2.2
    with ⟨err, w6⟩
  cases err <;> rfl

/-- The world that `UpdateTargets` leaves is the one that `SaveTargets` leaves. -/
theorem Storage.UpdateTargets_world (env : Env) (s : Storage) (F : List scraper.Target)
    (w : World) (history : TargetHistory) (w1 : World)
    (hload : Storage.LoadTargets env s w = (Result.ok history, w1)) :
    (Storage.UpdateTargets env s F w).2 =
      (Storage.SaveTargets env s
        (UpdateTargets.reconcile env s (UpdateTargets.filteredTargets F) history w1).2.1
        (UpdateTargets.reconcile env s (UpdateTargets.filteredTargets F) history w1).2.2).2 := by
  unfold Storage.UpdateTargets
  rw [hload]
  simp only
  rcases hsave : Storage.SaveTargets env s
    (UpdateTargets.reconcile env s (UpdateTargets.filteredTargets F) history w1).2.1
    (UpdateTargets.reconcile env s (UpdateTargets.filteredTargets F) history w1).2.2
    with ⟨err, w6⟩
  cases err <;> rfl

/-- `SaveTargets` changes no file other than the snapshot file. -/
theorem Storage.SaveTargets_files (env : Env) (s : Storage) (history : TargetHistory)
    (w : World) (p : String) (hp : p ≠ s.filePath) :
    (Storage.SaveTargets env s history w).2.files p = w.files p := by
  unfold Storage.SaveTargets
  by_cases h1 : env.mkdirAllOk = false
  · simp [h1]
  · cases h2 : env.marshalIndent history with
    | none => simp [h1, h2]
    | some data =>
      by_cases h3 : env.writeTargetsOk = false <;> simp [h1, h2, h3, writeFile, hp]

/-! ## The claims -/

/-- C1: in a successful run of `UpdateTargets`, for every fetched entry `f` that is not a
sentinel and whose (program name, target) pair is the pair of some stored entry, the new
snapshot has an entry for that pair, and every entry it has for that pair has the
first_seen of a stored entry `st` with that pair: the first one in the stored list (the
only one when the stored list has the pair once). No reading of the clock enters it. -/
theorem UpdateTargets_preserves_first_seen (env : Env) (s : Storage)
    (F : List scraper.Target) (w : World) (diff : TargetDiff)
    (hok : (Storage.UpdateTargets env s F w).1 = Result.ok diff) :
    ∃ stored S', (Storage.LoadTargets env s w).1 = Result.ok stored ∧
      Persists env s (Storage.UpdateTargets env s F w).2 S' ∧
      ∀ f ∈ F, f.Target ≠ "NO_IN_SCOPE_TABLE" →
        (∃ st ∈ stored.Targets, st.ProgramName = f.ProgramName ∧ st.Target = f.Target) →
        ∃ st ∈ stored.Targets, st.ProgramName = f.ProgramName ∧ st.Target = f.Target ∧
          stored.Targets.find? (fun x => decide (x.ProgramName = f.ProgramName
            ∧ x.Target = f.Target)) = some st ∧
          (∃ e ∈ S'.Targets, e.ProgramName = f.ProgramName ∧ e.Target = f.Target) ∧
          ∀ e ∈ S'.Targets, e.ProgramName = f.ProgramName → e.Target = f.Target →
            e.FirstSeen = st.FirstSeen := by
  obtain ⟨stored, w1, hload, -, hpers⟩ := Storage.UpdateTargets_ok env s F w diff hok
  refine ⟨stored, _, by rw [hload], hpers, ?_⟩
  intro f hf hsent hex
  obtain ⟨st, hst⟩ := UpdateTargets.lookup_isSome f stored.Targets hex
  have hst' := UpdateTargets.lookup_some _ _ _ hst
  have hf' := (UpdateTargets.mem_filteredTargets F f).mpr ⟨hf, hsent⟩
  refine ⟨st, hst'.1, hst'.2.1, hst'.2.2, ?_, ?_, ?_⟩
  · rw [← UpdateTargets.lookup_eq_find]; exact hst
  · rw [UpdateTargets.reconcile_targets]
    exact UpdateTargets.updatedTargets_exists env _ _ _ f hf'
  · intro e he hp ht
    rw [UpdateTargets.reconcile_targets] at he
    rw [UpdateTargets.updatedTargets_carried env _ _ _ f st hst e he hp ht]

/-- C1 on a concrete run: the stored snapshot has (`P1`, `T1`) first seen at 7; the run
reads the clock at 100 and later. -/
theorem UpdateTargets_preserves_first_seen_witness :
    ∃ stored S', (Storage.LoadTargets demoEnv demoStorage (demoWorld demoSnapshot)).1
        = Result.ok stored ∧
      Persists demoEnv demoStorage
        (Storage.UpdateTargets demoEnv demoStorage demoFetched (demoWorld demoSnapshot)).2 S' ∧
      ∀ f ∈ demoFetched, f.Target ≠ "NO_IN_SCOPE_TABLE" →
        (∃ st ∈ stored.Targets, st.ProgramName = f.ProgramName ∧ st.Target = f.Target) →
        ∃ st ∈ stored.Targets, st.ProgramName = f.ProgramName ∧ st.Target = f.Target ∧
          stored.Targets.find? (fun x => decide (x.ProgramName = f.ProgramName
            ∧ x.Target = f.Target)) = some st ∧
          (∃ e ∈ S'.Targets, e.ProgramName = f.ProgramName ∧ e.Target = f.Target) ∧
          ∀ e ∈ S'.Targets, e.ProgramName = f.ProgramName → e.Target = f.Target →
            e.FirstSeen = st.FirstSeen :=
  UpdateTargets_preserves_first_seen demoEnv demoStorage demoFetched (demoWorld demoSnapshot)
    ⟨[⟨"P1", "T2", "wildcard", 100⟩], [⟨"P2", "T3", "domain", 8⟩]⟩ (by decide)

/-- C2: when `UpdateTargets(F)` succeeds it persists a snapshot `S'` such that comparing the
sentinel-filtered `F` with `S'` gives an empty added list and an empty removed list, in
every environment; and every later successful run of `UpdateTargets(F)` that loads `S'`
returns the empty diff. -/
theorem UpdateTargets_idempotent (env : Env) (s : Storage) (F : List scraper.Target)
    (w : World) (diff : TargetDiff)
    (hok : (Storage.UpdateTargets env s F w).1 = Result.ok diff) :
    ∃ S', Persists env s (Storage.UpdateTargets env s F w).2 S' ∧
      (∀ (env2 : Env) (w2 : World),
        (Storage.CompareTargets env2 (UpdateTargets.filteredTargets F) S' w2).1 = ⟨[], []⟩) ∧
      (∀ (env2 : Env) (s2 : Storage) (w2 : World) (diff2 : TargetDiff),
        (Storage.LoadTargets env2 s2 w2).1 = Result.ok S' →
        (Storage.UpdateTargets env2 s2 F w2).1 = Result.ok diff2 → diff2 = ⟨[], []⟩) := by
  obtain ⟨stored, w1, -, -, hpers⟩ := Storage.UpdateTargets_ok env s F w diff hok
  have hpairs := UpdateTargets.updatedTargets_pairs env stored.Targets
    (UpdateTargets.filteredTargets F)
    (UpdateTargets.exportNewTargets env s
      (Storage.CompareTargets env (UpdateTargets.filteredTargets F) stored w1).1
      (Storage.CompareTargets env (UpdateTargets.filteredTargets F) stored w1).2)
  rw [← UpdateTargets.reconcile_targets] at hpairs
  refine ⟨_, hpers, ?_, ?_⟩
  · intro env2 w2
    exact Storage.CompareTargets_same_pairs env2 _ _ w2 hpairs
  · intro env2 s2 w2 diff2 hload2 hok2
    obtain ⟨stored2, w3, hl, hd, -⟩ := Storage.UpdateTargets_ok env2 s2 F w2 diff2 hok2
    rw [hl] at hload2
    simp only [Result.ok.injEq] at hload2
    rw [hd, UpdateTargets.reconcile_diff, hload2]
    exact Storage.CompareTargets_same_pairs env2 _ _ w3 hpairs

/-- C2 on a concrete run, and the second run from the world that the first run leaves. -/
theorem UpdateTargets_idempotent_witness :
    (∃ S', Persists demoEnv demoStorage
        (Storage.UpdateTargets demoEnv demoStorage demoFetched (demoWorld demoSnapshot)).2 S' ∧
      (∀ (env2 : Env) (w2 : World),
        (Storage.CompareTargets env2 (UpdateTargets.filteredTargets demoFetched) S' w2).1
          = ⟨[], []⟩) ∧
      (∀ (env2 : Env) (s2 : Storage) (w2 : World) (diff2 : TargetDiff),
        (Storage.LoadTargets env2 s2 w2).1 = Result.ok S' →
        (Storage.UpdateTargets env2 s2 demoFetched w2).1 = Result.ok diff2 →
        diff2 = ⟨[], []⟩)) ∧
    (Storage.UpdateTargets demoEnv demoStorage demoFetched
      (Storage.UpdateTargets demoEnv demoStorage demoFetched (demoWorld demoSnapshot)).2).1
        = Result.ok ⟨[], []⟩ :=
  ⟨UpdateTargets_idempotent demoEnv demoStorage demoFetched (demoWorld demoSnapshot)
    ⟨[⟨"P1", "T2", "wildcard", 100⟩], [⟨"P2", "T3", "domain", 8⟩]⟩ (by decide), by decide⟩

/-- C3 (amended): in a successful run of `UpdateTargets`, no entry of the added list and no
entry of the persisted snapshot has the target `NO_IN_SCOPE_TABLE`; every entry of the
removed list is an entry of the stored snapshot, so the removed list has an entry with
that target only when the stored snapshot already had one (a snapshot persisted by
`UpdateTargets` has none). -/
theorem UpdateTargets_filters_sentinel (env : Env) (s : Storage) (F : List scraper.Target)
    (w : World) (diff : TargetDiff)
    (hok : (Storage.UpdateTargets env s F w).1 = Result.ok diff) :
    ∃ stored S', (Storage.LoadTargets env s w).1 = Result.ok stored ∧
      Persists env s (Storage.UpdateTargets env s F w).2 S' ∧
      (∀ e ∈ diff.NewTargets, e.Target ≠ "NO_IN_SCOPE_TABLE") ∧
      (∀ e ∈ S'.Targets, e.Target ≠ "NO_IN_SCOPE_TABLE") ∧
      (∀ e ∈ diff.Removed, e ∈ stored.Targets) ∧
      ((∀ st ∈ stored.Targets, st.Target ≠ "NO_IN_SCOPE_TABLE") →
        ∀ e ∈ diff.Removed, e.Target ≠ "NO_IN_SCOPE_TABLE") := by
  obtain ⟨stored, w1, hload, hdiff, hpers⟩ := Storage.UpdateTargets_ok env s F w diff hok
  obtain ⟨-, -, hmem, hfields⟩ :=
    Storage.CompareTargets_diffByKey env (UpdateTargets.filteredTargets F) stored w1
  rw [UpdateTargets.reconcile_diff] at hdiff
  rw [← hdiff] at hmem hfields
  refine ⟨stored, _, by rw [hload], hpers, ?_, ?_, hmem, fun h e he => h e (hmem e he)⟩
  · intro e he
    obtain ⟨f, hf, -, ht, -⟩ := hfields e he
    rw [ht]
    exact ((UpdateTargets.mem_filteredTargets F f).mp hf).2
  · intro e he
    rw [UpdateTargets.reconcile_targets] at he
    obtain ⟨f, hf, -, ht⟩ := UpdateTargets.updatedTargets_fetched env _ _ _ e he
    rw [ht]
    exact ((UpdateTargets.mem_filteredTargets F f).mp hf).2

/-- C3 (amended) on a concrete run whose fetched list has a sentinel entry. -/
theorem UpdateTargets_filters_sentinel_witness :
    ∃ stored S', (Storage.LoadTargets demoEnv demoStorage (demoWorld demoSnapshot)).1
        = Result.ok stored ∧
      Persists demoEnv demoStorage
        (Storage.UpdateTargets demoEnv demoStorage demoFetched (demoWorld demoSnapshot)).2 S' ∧
      (∀ e ∈ [(⟨"P1", "T2", "wildcard", 100⟩ : StoredTarget)],
        e.Target ≠ "NO_IN_SCOPE_TABLE") ∧
      (∀ e ∈ S'.Targets, e.Target ≠ "NO_IN_SCOPE_TABLE") ∧
      (∀ e ∈ [(⟨"P2", "T3", "domain", 8⟩ : StoredTarget)], e ∈ stored.Targets) ∧
      ((∀ st ∈ stored.Targets, st.Target ≠ "NO_IN_SCOPE_TABLE") →
        ∀ e ∈ [(⟨"P2", "T3", "domain", 8⟩ : StoredTarget)],
          e.Target ≠ "NO_IN_SCOPE_TABLE") :=
  UpdateTargets_filters_sentinel demoEnv demoStorage demoFetched (demoWorld demoSnapshot)
    ⟨[⟨"P1", "T2", "wildcard", 100⟩], [⟨"P2", "T3", "domain", 8⟩]⟩ (by decide)

/-- C3 as stated fails: the stored snapshot holds (`P1`, `NO_IN_SCOPE_TABLE`) and the
fetched list is that sentinel entry; the run succeeds and its removed list has an entry with
the program name and the target of the fetched sentinel entry. -/
theorem UpdateTargets_sentinel_removed_counterexample :
    ∃ diff, (Storage.UpdateTargets demoEnv demoStorage [⟨"P1", "NO_IN_SCOPE_TABLE", "x", 0⟩]
        (demoWorld ⟨5, [⟨"P1", "NO_IN_SCOPE_TABLE", "x", 7⟩]⟩)).1 = Result.ok diff ∧
      ∃ f ∈ [(⟨"P1", "NO_IN_SCOPE_TABLE", "x", 0⟩ : scraper.Target)],
        f.Target = "NO_IN_SCOPE_TABLE" ∧
        ∃ e ∈ diff.Removed, e.ProgramName = f.ProgramName ∧ e.Target = f.Target :=
  ⟨⟨[], [⟨"P1", "NO_IN_SCOPE_TABLE", "x", 7⟩]⟩, by decide, _, List.mem_singleton_self _, rfl,
    _, List.mem_singleton_self _, rfl, rfl⟩
/-- C4 (amended): the diff of `CompareTargets` is the two-way set difference by the key
string `ProgramName + "|" + Target`; every removed entry is a stored entry (with its
category and first_seen) and every added entry has the fields of a fetched target. When no
program name contains `|`, this is the two-way set difference by the pair
(program name, target). -/
theorem CompareTargets_diff_by_key (env : Env) (F : List scraper.Target) (S : TargetHistory)
    (w : World) :
    DiffByKey F S (Storage.CompareTargets env F S w).1 ∧
    ((∀ f ∈ F, hasSeparator f.ProgramName = false) →
      (∀ s ∈ S.Targets, hasSeparator s.ProgramName = false) →
      DiffByPair F S (Storage.CompareTargets env F S w).1) :=
  ⟨Storage.CompareTargets_diffByKey env F S w,
    fun hF hS => DiffByKey.toPair F S _ hF hS (Storage.CompareTargets_diffByKey env F S w)⟩

/-- C4, a concrete run of the amended statement: one target carried, one added, one
removed. -/
theorem CompareTargets_diff_by_key_witness :
    DiffByPair [⟨"P1", "T1", "domain", 0⟩, ⟨"P1", "T2", "wildcard", 0⟩]
      ⟨5, [⟨"P1", "T1", "domain", 7⟩, ⟨"P2", "T3", "domain", 8⟩]⟩
      (Storage.CompareTargets demoEnv [⟨"P1", "T1", "domain", 0⟩, ⟨"P1", "T2", "wildcard", 0⟩]
        ⟨5, [⟨"P1", "T1", "domain", 7⟩, ⟨"P2", "T3", "domain", 8⟩]⟩ (demoWorld ⟨0, []⟩)).1 :=
  (CompareTargets_diff_by_key demoEnv _ _ _).2 (by decide) (by decide)

/-- C4 as stated fails: the distinct pairs (`a|b`, `c`) and (`a`, `b|c`) have the same key
`a|b|c`, so the fetched pair (`a|b`, `c`), which no stored entry has, is not added. -/
theorem CompareTargets_diff_by_pair_counterexample :
    ¬ DiffByPair [⟨"a|b", "c", "domain", 0⟩] ⟨5, [⟨"a", "b|c", "domain", 7⟩]⟩
      (Storage.CompareTargets demoEnv [⟨"a|b", "c", "domain", 0⟩]
        ⟨5, [⟨"a", "b|c", "domain", 7⟩]⟩ (demoWorld ⟨0, []⟩)).1 := by
  intro h
  have hnew : (Storage.CompareTargets demoEnv [⟨"a|b", "c", "domain", 0⟩]
      ⟨5, [⟨"a", "b|c", "domain", 7⟩]⟩ (demoWorld ⟨0, []⟩)).1.NewTargets = [] := by decide
  have := (h.1 "a|b" "c").mpr ⟨⟨_, List.mem_singleton_self _, rfl, rfl⟩, by decide⟩
  rw [hnew] at this
  simp at this

/-- C5 (amended): in a successful run of `UpdateTargets`, when no program name of the stored
snapshot or of the sentinel-filtered fetched list contains `|`, every pair
(program name, target) of the snapshot or of the filtered fetched list is in exactly one of
the classes carried forward, added, removed. No pair occurs twice in the added list or in
the removed list, and none occurs twice in the new snapshot when none occurs twice in the
filtered fetched list. -/
theorem UpdateTargets_classifies (env : Env) (s : Storage) (F : List scraper.Target)
    (w : World) (diff : TargetDiff)
    (hok : (Storage.UpdateTargets env s F w).1 = Result.ok diff) :
    ∃ stored S', (Storage.LoadTargets env s w).1 = Result.ok stored ∧
      Persists env s (Storage.UpdateTargets env s F w).2 S' ∧
      ((∀ f ∈ UpdateTargets.filteredTargets F, hasSeparator f.ProgramName = false) →
        (∀ st ∈ stored.Targets, hasSeparator st.ProgramName = false) →
        Classified stored.Targets (UpdateTargets.filteredTargets F) diff S'.Targets) ∧
      (((UpdateTargets.filteredTargets F).map (fun f => (f.ProgramName, f.Target))).Nodup →
        (S'.Targets.map (fun e => (e.ProgramName, e.Target))).Nodup) ∧
      (diff.NewTargets.map (fun e => (e.ProgramName, e.Target))).Nodup ∧
      (diff.Removed.map (fun e => (e.ProgramName, e.Target))).Nodup := by
  obtain ⟨stored, w1, hload, hdiff, hpers⟩ := Storage.UpdateTargets_ok env s F w diff hok
  rw [UpdateTargets.reconcile_diff] at hdiff
  have hn : (diff.NewTargets.map (fun e => (e.ProgramName, e.Target))).Nodup := by
    rw [hdiff]; exact Storage.CompareTargets_nodup_new env _ stored w1
  have hr : (diff.Removed.map (fun e => (e.ProgramName, e.Target))).Nodup := by
    rw [hdiff]; exact Storage.CompareTargets_nodup_removed env _ stored w1
  refine ⟨stored, _, by rw [hload], hpers, ?_, ?_, hn, hr⟩
  · intro hF hS
    rw [UpdateTargets.reconcile_targets]
    apply UpdateTargets.classified env stored.Targets _ _ diff stored.LastUpdated
    rw [hdiff]
    exact DiffByKey.toPair _ _ _ hF hS (Storage.CompareTargets_diffByKey env _ stored w1)
  · intro hnd
    rw [UpdateTargets.reconcile_targets, UpdateTargets.updatedTargets_pairs]
    exact hnd

/-- C5 (amended) on a concrete run: one pair carried, one added, one removed; the run
classifies every pair and no pair occurs twice. -/
theorem UpdateTargets_classifies_witness :
    ∃ stored S', (Storage.LoadTargets demoEnv demoStorage (demoWorld demoSnapshot)).1
        = Result.ok stored ∧
      Persists demoEnv demoStorage
        (Storage.UpdateTargets demoEnv demoStorage demoFetched (demoWorld demoSnapshot)).2 S' ∧
      Classified stored.Targets (UpdateTargets.filteredTargets demoFetched)
        ⟨[⟨"P1", "T2", "wildcard", 100⟩], [⟨"P2", "T3", "domain", 8⟩]⟩ S'.Targets ∧
      NoPairTwice ⟨[⟨"P1", "T2", "wildcard", 100⟩], [⟨"P2", "T3", "domain", 8⟩]⟩
        S'.Targets := by
  obtain ⟨stored, S', hl, hp, hc, hnd, hn, hr⟩ :=
    UpdateTargets_classifies demoEnv demoStorage demoFetched (demoWorld demoSnapshot)
      ⟨[⟨"P1", "T2", "wildcard", 100⟩], [⟨"P2", "T3", "domain", 8⟩]⟩ (by decide)
  have hs : stored = demoSnapshot := by
    have h : (Storage.LoadTargets demoEnv demoStorage (demoWorld demoSnapshot)).1
        = Result.ok demoSnapshot := by decide
    rw [h] at hl
    exact (Result.ok.inj hl).symm
  subst hs
  exact ⟨_, S', hl, hp, hc (by decide) (by decide), hnd (by decide), hn, hr⟩

/-- C5 as stated fails. First run: the stored pair (`a`, `b|c`) and the fetched pair
(`a|b`, `c`) have the same key, the diff is empty and the new snapshot holds only the
fetched pair, so neither pair is in any class. Second run: the fetched list repeats
(`P1`, `T2`) and the new snapshot holds that pair twice. -/
theorem UpdateTargets_classifies_counterexample :
    (∃ diff stored S',
      (Storage.UpdateTargets demoEnv demoStorage [⟨"a|b", "c", "domain", 0⟩]
        (demoWorld ⟨5, [⟨"a", "b|c", "domain", 7⟩]⟩)).1 = Result.ok diff ∧
      (Storage.LoadTargets demoEnv demoStorage
        (demoWorld ⟨5, [⟨"a", "b|c", "domain", 7⟩]⟩)).1 = Result.ok stored ∧
      Persists demoEnv demoStorage
        (Storage.UpdateTargets demoEnv demoStorage [⟨"a|b", "c", "domain", 0⟩]
          (demoWorld ⟨5, [⟨"a", "b|c", "domain", 7⟩]⟩)).2 S' ∧
      ¬ Classified stored.Targets
        (UpdateTargets.filteredTargets [⟨"a|b", "c", "domain", 0⟩]) diff S'.Targets) ∧
    (∃ diff S',
      (Storage.UpdateTargets demoEnv demoStorage
        [⟨"P1", "T2", "wildcard", 0⟩, ⟨"P1", "T2", "wildcard", 0⟩]
        (demoWorld ⟨5, []⟩)).1 = Result.ok diff ∧
      Persists demoEnv demoStorage
        (Storage.UpdateTargets demoEnv demoStorage
          [⟨"P1", "T2", "wildcard", 0⟩, ⟨"P1", "T2", "wildcard", 0⟩]
          (demoWorld ⟨5, []⟩)).2 S' ∧
      ¬ NoPairTwice diff S'.Targets) := by
  refine ⟨⟨⟨[], []⟩, ⟨5, [⟨"a", "b|c", "domain", 7⟩]⟩, ⟨102, [⟨"a|b", "c", "domain", 101⟩]⟩,
    by decide, by decide, ⟨_, rfl, by decide⟩, ?_⟩,
    ⟨⟨[⟨"P1", "T2", "wildcard", 100⟩], []⟩,
      ⟨104, [⟨"P1", "T2", "wildcard", 102⟩, ⟨"P1", "T2", "wildcard", 103⟩]⟩,
      by decide, ⟨_, rfl, by decide⟩, ?_⟩⟩
  · intro h
    have h1 := h "a|b" "c" (Or.inr ⟨⟨"a|b", "c", "domain", 0⟩, by decide, rfl, rfl⟩)
    simp [ExactlyOne, Carried, Added, Removed] at h1
  · intro h
    have h1 := h.1
    simp at h1

/-- C6 (amended): the entry list that a successful `UpdateTargets` persists has one entry
per entry of the sentinel-filtered fetched list, in the same order and with the same
(program name, target) pair; so it has no two entries with the same pair exactly when the
filtered fetched list has no two entries with the same pair. -/
theorem UpdateTargets_snapshot_pairs (env : Env) (s : Storage) (F : List scraper.Target)
    (w : World) (diff : TargetDiff)
    (hok : (Storage.UpdateTargets env s F w).1 = Result.ok diff) :
    ∃ S', Persists env s (Storage.UpdateTargets env s F w).2 S' ∧
      S'.Targets.map (fun e => (e.ProgramName, e.Target))
        = (UpdateTargets.filteredTargets F).map (fun f => (f.ProgramName, f.Target)) ∧
      ((S'.Targets.map (fun e => (e.ProgramName, e.Target))).Nodup ↔
        ((UpdateTargets.filteredTargets F).map (fun f => (f.ProgramName, f.Target))).Nodup) := by
  obtain ⟨stored, w1, -, -, hpers⟩ := Storage.UpdateTargets_ok env s F w diff hok
  have hpairs := UpdateTargets.updatedTargets_pairs env stored.Targets
    (UpdateTargets.filteredTargets F)
    (UpdateTargets.exportNewTargets env s
      (Storage.CompareTargets env (UpdateTargets.filteredTargets F) stored w1).1
      (Storage.CompareTargets env (UpdateTargets.filteredTargets F) stored w1).2)
  rw [← UpdateTargets.reconcile_targets] at hpairs
  exact ⟨_, hpers, hpairs, by rw [hpairs]⟩

/-- C6 (amended) on a concrete run. -/
theorem UpdateTargets_snapshot_pairs_witness :
    ∃ S', Persists demoEnv demoStorage
        (Storage.UpdateTargets demoEnv demoStorage demoFetched (demoWorld demoSnapshot)).2 S' ∧
      S'.Targets.map (fun e => (e.ProgramName, e.Target))
        = (UpdateTargets.filteredTargets demoFetched).map
            (fun f => (f.ProgramName, f.Target)) ∧
      ((S'.Targets.map (fun e => (e.ProgramName, e.Target))).Nodup ↔
        ((UpdateTargets.filteredTargets demoFetched).map
          (fun f => (f.ProgramName, f.Target))).Nodup) :=
  UpdateTargets_snapshot_pairs demoEnv demoStorage demoFetched (demoWorld demoSnapshot)
    ⟨[⟨"P1", "T2", "wildcard", 100⟩], [⟨"P2", "T3", "domain", 8⟩]⟩ (by decide)

/-- C6 as stated fails: the fetched list repeats the pair (`P1`, `T2`), the stored snapshot
is empty, the run succeeds and the persisted list holds two entries with that pair (first
seen at 102 and at 103). -/
theorem UpdateTargets_snapshot_unique_counterexample :
    (Storage.UpdateTargets demoEnv demoStorage
      [⟨"P1", "T2", "wildcard", 0⟩, ⟨"P1", "T2", "wildcard", 0⟩]
      (demoWorld ⟨5, []⟩)).1 = Result.ok ⟨[⟨"P1", "T2", "wildcard", 100⟩], []⟩ ∧
    Persists demoEnv demoStorage
      (Storage.UpdateTargets demoEnv demoStorage
        [⟨"P1", "T2", "wildcard", 0⟩, ⟨"P1", "T2", "wildcard", 0⟩] (demoWorld ⟨5, []⟩)).2
      ⟨104, [⟨"P1", "T2", "wildcard", 102⟩, ⟨"P1", "T2", "wildcard", 103⟩]⟩ ∧
    ¬ ([(⟨"P1", "T2", "wildcard", 102⟩ : StoredTarget), ⟨"P1", "T2", "wildcard", 103⟩].map
      (fun e => (e.ProgramName, e.Target))).Nodup :=
  ⟨by decide, ⟨_, rfl, by decide⟩, by decide⟩

/-- C7 (amended): in a successful run of `UpdateTargets`, for every fetched entry `f` that
is not a sentinel and whose pair is the pair of some stored entry, every entry of the new
snapshot with that pair is the first stored entry `st` with that pair, unchanged: program
name, target, category and first_seen are the stored ones; the category of `f` is not
taken. -/
theorem UpdateTargets_carries_stored_entry (env : Env) (s : Storage)
    (F : List scraper.Target) (w : World) (diff : TargetDiff)
    (hok : (Storage.UpdateTargets env s F w).1 = Result.ok diff) :
    ∃ stored S', (Storage.LoadTargets env s w).1 = Result.ok stored ∧
      Persists env s (Storage.UpdateTargets env s F w).2 S' ∧
      ∀ f ∈ F, f.Target ≠ "NO_IN_SCOPE_TABLE" →
        (∃ st ∈ stored.Targets, st.ProgramName = f.ProgramName ∧ st.Target = f.Target) →
        ∃ st ∈ stored.Targets,
          stored.Targets.find? (fun x => decide (x.ProgramName = f.ProgramName
            ∧ x.Target = f.Target)) = some st ∧
          (∃ e ∈ S'.Targets, e.ProgramName = f.ProgramName ∧ e.Target = f.Target) ∧
          ∀ e ∈ S'.Targets, e.ProgramName = f.ProgramName → e.Target = f.Target →
            e.ProgramName = st.ProgramName ∧ e.Target = st.Target ∧
            e.Category = st.Category ∧ e.FirstSeen = st.FirstSeen := by
  obtain ⟨stored, w1, hload, -, hpers⟩ := Storage.UpdateTargets_ok env s F w diff hok
  refine ⟨stored, _, by rw [hload], hpers, ?_⟩
  intro f hf hsent hex
  obtain ⟨st, hst⟩ := UpdateTargets.lookup_isSome f stored.Targets hex
  have hf' := (UpdateTargets.mem_filteredTargets F f).mpr ⟨hf, hsent⟩
  refine ⟨st, (UpdateTargets.lookup_some _ _ _ hst).1, ?_, ?_, ?_⟩
  · rw [← UpdateTargets.lookup_eq_find]; exact hst
  · rw [UpdateTargets.reconcile_targets]
    exact UpdateTargets.updatedTargets_exists env _ _ _ f hf'
  · intro e he hp ht
    rw [UpdateTargets.reconcile_targets] at he
    rw [UpdateTargets.updatedTargets_carried env _ _ _ f st hst e he hp ht]
    exact ⟨rfl, rfl, rfl, rfl⟩

/-- C7 (amended) on a concrete run: (`P1`, `T1`) is stored with category `domain` and
fetched with category `wildcard`. -/
theorem UpdateTargets_carries_stored_entry_witness :
    ∃ stored S', (Storage.LoadTargets demoEnv demoStorage (demoWorld demoSnapshot)).1
        = Result.ok stored ∧
      Persists demoEnv demoStorage
        (Storage.UpdateTargets demoEnv demoStorage demoFetched (demoWorld demoSnapshot)).2 S' ∧
      ∀ f ∈ demoFetched, f.Target ≠ "NO_IN_SCOPE_TABLE" →
        (∃ st ∈ stored.Targets, st.ProgramName = f.ProgramName ∧ st.Target = f.Target) →
        ∃ st ∈ stored.Targets,
          stored.Targets.find? (fun x => decide (x.ProgramName = f.ProgramName
            ∧ x.Target = f.Target)) = some st ∧
          (∃ e ∈ S'.Targets, e.ProgramName = f.ProgramName ∧ e.Target = f.Target) ∧
          ∀ e ∈ S'.Targets, e.ProgramName = f.ProgramName → e.Target = f.Target →
            e.ProgramName = st.ProgramName ∧ e.Target = st.Target ∧
            e.Category = st.Category ∧ e.FirstSeen = st.FirstSeen :=
  UpdateTargets_carries_stored_entry demoEnv demoStorage demoFetched
    (demoWorld demoSnapshot)
    ⟨[⟨"P1", "T2", "wildcard", 100⟩], [⟨"P2", "T3", "domain", 8⟩]⟩ (by decide)

/-- C7 as stated fails: (`P1`, `T1`) is stored with category `domain` and fetched with
category `wildcard`; the run succeeds and the persisted entry for the pair still has
category `domain`. -/
theorem UpdateTargets_category_refresh_counterexample :
    (Storage.UpdateTargets demoEnv demoStorage demoFetched (demoWorld demoSnapshot)).1
      = Result.ok ⟨[⟨"P1", "T2", "wildcard", 100⟩], [⟨"P2", "T3", "domain", 8⟩]⟩ ∧
    Persists demoEnv demoStorage
      (Storage.UpdateTargets demoEnv demoStorage demoFetched (demoWorld demoSnapshot)).2
      ⟨103, [⟨"P1", "T1", "domain", 7⟩, ⟨"P1", "T2", "wildcard", 102⟩]⟩ ∧
    ∃ f ∈ demoFetched, ∃ st ∈ demoSnapshot.Targets,
      st.ProgramName = f.ProgramName ∧ st.Target = f.Target ∧
      ∃ e ∈ [(⟨"P1", "T1", "domain", 7⟩ : StoredTarget), ⟨"P1", "T2", "wildcard", 102⟩],
        e.ProgramName = f.ProgramName ∧ e.Target = f.Target ∧ e.Category ≠ f.Category :=
  ⟨by decide, ⟨_, rfl, by decide⟩, by decide⟩

/-- C8 (amended): when the zone `Asia/Kolkata` is loaded, `LoadTargets` returns a snapshot
with an empty entry list, stamped with the clock reading, and no error in each of these
states of the snapshot file: `os.Stat` reports that it does not exist; `os.Stat` reports size
zero; `os.Stat` reports a size other than zero, `os.ReadFile` returns content, and the
content does not parse. When `os.Stat` reports a size other than zero and the content that
`os.ReadFile` returns parses, it returns the parsed history and no error. When `os.Stat`
reports a size other than zero and `os.ReadFile` fails, it returns no snapshot and the error
`failed to read targets file: ` followed by the text of the read error. -/
theorem LoadTargets_outcomes (env : Env) (s : Storage) (w : World) :
    (env.zoneLoaded = true → w.files s.filePath = FileState.notExist →
      (Storage.LoadTargets env s w).1 = Result.ok ⟨env.clock w.ticks, []⟩) ∧
    (env.zoneLoaded = true → ∀ content, w.files s.filePath = FileState.present 0 content →
      (Storage.LoadTargets env s w).1 = Result.ok ⟨env.clock w.ticks, []⟩) ∧
    (env.zoneLoaded = true → ∀ size data, size ≠ 0 →
      w.files s.filePath = FileState.present size (some data) →
      env.unmarshal data = none →
      (Storage.LoadTargets env s w).1 = Result.ok ⟨env.clock w.ticks, []⟩) ∧
    (∀ size data history, size ≠ 0 →
      w.files s.filePath = FileState.present size (some data) →
      env.unmarshal data = some history →
      (Storage.LoadTargets env s w).1 = Result.ok history) ∧
    (∀ size, size ≠ 0 → w.files s.filePath = FileState.present size none →
      (Storage.LoadTargets env s w).1
        = Result.error ("failed to read targets file: " ++ env.readFileError)) := by
  have hempty : env.zoneLoaded = true →
      (LoadTargets.emptyHistory env w).1 = Result.ok ⟨env.clock w.ticks, []⟩ := by
    intro hz
    simp [LoadTargets.emptyHistory, getISTTime_of_zoneLoaded env w hz, readClock]
  refine ⟨?_, ?_, ?_, ?_, ?_⟩
  · intro hz h
    simp only [Storage.LoadTargets, h]
    exact hempty hz
  · intro hz content h
    simp only [Storage.LoadTargets, h, if_true]
    exact hempty hz
  · intro hz size data hsize h hparse
    simp only [Storage.LoadTargets, h, hsize, if_false, hparse]
    exact hempty hz
  · intro size data history hsize h hparse
    simp [Storage.LoadTargets, h, hsize, hparse]
  · intro size hsize h
    simp [Storage.LoadTargets, h, hsize]

/-- C8 (amended) on five concrete states of the snapshot file, on a host where the zone is
loaded: missing, zero-length, unparsable, holding `demoSnapshot`, and unreadable. -/
theorem LoadTargets_outcomes_witness :
    (Storage.LoadTargets demoEnv demoStorage ⟨0, fun _ => FileState.notExist⟩).1
      = Result.ok ⟨100, []⟩ ∧
    (Storage.LoadTargets demoEnv demoStorage ⟨0, fun _ => FileState.present 0 none⟩).1
      = Result.ok ⟨100, []⟩ ∧
    (Storage.LoadTargets demoEnv demoStorage
      ⟨0, fun _ => FileState.present 3 (some [1, 2, 3])⟩).1 = Result.ok ⟨100, []⟩ ∧
    (Storage.LoadTargets demoEnv demoStorage (demoWorld demoSnapshot)).1
      = Result.ok demoSnapshot ∧
    (Storage.LoadTargets demoEnv demoStorage
      ⟨0, fun _ => FileState.present 10 none⟩).1
      = Result.error
        "failed to read targets file: open data/targets.json: permission denied" :=
  ⟨(LoadTargets_outcomes demoEnv demoStorage ⟨0, fun _ => FileState.notExist⟩).1 rfl rfl,
    (LoadTargets_outcomes demoEnv demoStorage ⟨0, fun _ => FileState.present 0 none⟩).2.1
      rfl none rfl,
    (LoadTargets_outcomes demoEnv demoStorage
      ⟨0, fun _ => FileState.present 3 (some [1, 2, 3])⟩).2.2.1 rfl 3 [1, 2, 3] (by decide) rfl
      (by decide),
    (LoadTargets_outcomes demoEnv demoStorage (demoWorld demoSnapshot)).2.2.2.1 _ _
      demoSnapshot (by decide) rfl (by decide),
    (LoadTargets_outcomes demoEnv demoStorage
      ⟨0, fun _ => FileState.present 10 none⟩).2.2.2.2 10 (by decide) rfl⟩

/-- C8 as stated fails: `os.Stat` reports size 10 for the snapshot file and `os.ReadFile`
fails on it; the zone is loaded; `LoadTargets` returns an error and no snapshot. -/
theorem LoadTargets_never_fails_counterexample :
    (Storage.LoadTargets demoEnv demoStorage ⟨0, fun _ => FileState.present 10 none⟩).1
      = Result.error
        "failed to read targets file: open data/targets.json: permission denied" ∧
    ¬ ∃ history, (Storage.LoadTargets demoEnv demoStorage
      ⟨0, fun _ => FileState.present 10 none⟩).1 = Result.ok history := by
  refine ⟨by decide, ?_⟩
  rintro ⟨history, h⟩
  have h1 : (Storage.LoadTargets demoEnv demoStorage
      ⟨0, fun _ => FileState.present 10 none⟩).1
      = Result.error
        "failed to read targets file: open data/targets.json: permission denied" := by
    decide
  rw [h1] at h
  cases h

/-- C9: when the load succeeded and `SaveTargets` fails on the new history, `UpdateTargets`
returns an error (and so no diff). The outcome of the write to `new-targets.json` changes
neither the result of `UpdateTargets` (the diff, or the error) nor, in a successful run,
the content of the snapshot file. -/
theorem UpdateTargets_failure_policy (env : Env) (s : Storage) (F : List scraper.Target)
    (w : World) :
    (∀ history w1, Storage.LoadTargets env s w = (Result.ok history, w1) →
      (Storage.SaveTargets env s
        (UpdateTargets.reconcile env s (UpdateTargets.filteredTargets F) history w1).2.1
        (UpdateTargets.reconcile env s (UpdateTargets.filteredTargets F) history w1).2.2).1
          ≠ none →
      ∃ msg, (Storage.UpdateTargets env s F w).1 = Result.error msg) ∧
    (∀ b : Bool,
      (Storage.UpdateTargets (env.withExportWrite b) s F w).1
        = (Storage.UpdateTargets env s F w).1 ∧
      ∀ diff, (Storage.UpdateTargets env s F w).1 = Result.ok diff →
        (Storage.UpdateTargets (env.withExportWrite b) s F w).2.files s.filePath
          = (Storage.UpdateTargets env s F w).2.files s.filePath) := by
  constructor
  · intro history w1 hload hsave
    rw [Storage.UpdateTargets_result env s F w history w1 hload]
    cases herr : (Storage.SaveTargets env s
        (UpdateTargets.reconcile env s (UpdateTargets.filteredTargets F) history w1).2.1
        (UpdateTargets.reconcile env s (UpdateTargets.filteredTargets F) history w1).2.2).1 with
    | none => exact absurd herr hsave
    | some msg => exact ⟨_, rfl⟩
  · intro b
    have hres : (Storage.UpdateTargets (env.withExportWrite b) s F w).1
        = (Storage.UpdateTargets env s F w).1 := by
      rcases hload : Storage.LoadTargets env s w with ⟨r, w1⟩
      have hload' : Storage.LoadTargets (env.withExportWrite b) s w = (r, w1) := hload
      cases r with
      | panic =>
        unfold Storage.UpdateTargets
        rw [hload, hload']
      | error msg =>
        unfold Storage.UpdateTargets
        rw [hload, hload']
      | ok history =>
        rw [Storage.UpdateTargets_result env s F w history w1 hload,
          Storage.UpdateTargets_result (env.withExportWrite b) s F w history w1 hload',
          (UpdateTargets.reconcile_withExportWrite env b s _ history w1).1,
          (UpdateTargets.reconcile_withExportWrite env b s _ history w1).2,
          Storage.SaveTargets_error env b s _ _
            (UpdateTargets.reconcile env s (UpdateTargets.filteredTargets F) history w1).2.2]
    refine ⟨hres, ?_⟩
    intro diff hok
    obtain ⟨history, w1, hload, -, data, hdata, hfile⟩ :=
      Storage.UpdateTargets_ok env s F w diff hok
    obtain ⟨history', w1', hload', -, data', hdata', hfile'⟩ :=
      Storage.UpdateTargets_ok (env.withExportWrite b) s F w diff (hres.trans hok)
    have hl : Storage.LoadTargets (env.withExportWrite b) s w = (Result.ok history, w1) :=
      hload
    rw [hl] at hload'
    simp only [Prod.mk.injEq, Result.ok.injEq] at hload'
    obtain ⟨rfl, rfl⟩ := hload'
    rw [(UpdateTargets.reconcile_withExportWrite env b s _ history w1).2] at hdata'
    have hd : env.marshalIndent
        (UpdateTargets.reconcile env s (UpdateTargets.filteredTargets F) history w1).2.1
        = some data' := hdata'
    rw [hdata] at hd
    cases hd
    rw [hfile, hfile']

/-- C9 on concrete runs: a run in which the write of the snapshot file fails (and returns
an error), and the run of `demoEnv` compared with the runs in which the write to
`new-targets.json` fails or succeeds. -/
theorem UpdateTargets_failure_policy_witness :
    (∃ msg, (Storage.UpdateTargets demoEnvSaveFails demoStorage demoFetched
      (demoWorld demoSnapshot)).1 = Result.error msg) ∧
    (∀ b : Bool,
      (Storage.UpdateTargets (demoEnv.withExportWrite b) demoStorage demoFetched
        (demoWorld demoSnapshot)).1
        = (Storage.UpdateTargets demoEnv demoStorage demoFetched (demoWorld demoSnapshot)).1 ∧
      ∀ diff, (Storage.UpdateTargets demoEnv demoStorage demoFetched
          (demoWorld demoSnapshot)).1 = Result.ok diff →
        (Storage.UpdateTargets (demoEnv.withExportWrite b) demoStorage demoFetched
          (demoWorld demoSnapshot)).2.files demoStorage.filePath
          = (Storage.UpdateTargets demoEnv demoStorage demoFetched
            (demoWorld demoSnapshot)).2.files demoStorage.filePath) ∧
    (Storage.UpdateTargets (demoEnv.withExportWrite false) demoStorage demoFetched
      (demoWorld demoSnapshot)).1
      = Result.ok ⟨[⟨"P1", "T2", "wildcard", 100⟩], [⟨"P2", "T3", "domain", 8⟩]⟩ :=
  ⟨(UpdateTargets_failure_policy demoEnvSaveFails demoStorage demoFetched
      (demoWorld demoSnapshot)).1 demoSnapshot (demoWorld demoSnapshot) rfl (by decide),
    (UpdateTargets_failure_policy demoEnv demoStorage demoFetched
      (demoWorld demoSnapshot)).2, by decide⟩

/-- C10 (amended): after a successful run of `UpdateTargets` in which the write to
`new-targets.json` succeeds (the history that this run exports is encoded, the write is
done, and `new-targets.json` is not the snapshot file itself), the additions-export file
holds, whatever it held before, the encoding of the history that the run exports: the entry
list of that history is the added list returned by the run (the empty list when the run
found no additions). -/
theorem UpdateTargets_export_holds (env : Env) (s : Storage) (F : List scraper.Target)
    (w : World) (diff : TargetDiff) (stored : TargetHistory) (w1 : World)
    (hload : Storage.LoadTargets env s w = (Result.ok stored, w1))
    (hok : (Storage.UpdateTargets env s F w).1 = Result.ok diff)
    (hwrite : env.writeNewTargetsOk = true)
    (hmarshal : env.marshalIndent (UpdateTargets.exportHistory env diff
      (Storage.CompareTargets env (UpdateTargets.filteredTargets F) stored w1).2) ≠ none)
    (hpath : env.newTargetsPath s.filePath ≠ s.filePath) :
    ExportHolds env s (Storage.UpdateTargets env s F w).2 diff.NewTargets ∧
    ∃ data, env.marshalIndent (UpdateTargets.exportHistory env diff
        (Storage.CompareTargets env (UpdateTargets.filteredTargets F) stored w1).2)
        = some data ∧
      (Storage.UpdateTargets env s F w).2.files (env.newTargetsPath s.filePath)
        = FileState.present data.length (some data) := by
  obtain ⟨history, w1', hload', hdiff, -⟩ := Storage.UpdateTargets_ok env s F w diff hok
  rw [hload] at hload'
  simp only [Prod.mk.injEq, Result.ok.injEq] at hload'
  obtain ⟨rfl, rfl⟩ := hload'
  rw [UpdateTargets.reconcile_diff] at hdiff
  obtain ⟨data, hdata, hfile⟩ := UpdateTargets.exportNewTargets_holds env s diff
    (Storage.CompareTargets env (UpdateTargets.filteredTargets F) stored w1).2 hwrite hmarshal
  have hfinal : (Storage.UpdateTargets env s F w).2.files (env.newTargetsPath s.filePath)
      = FileState.present data.length (some data) := by
    rw [Storage.UpdateTargets_world env s F w stored w1 hload,
      Storage.SaveTargets_files env s _ _ _ hpath, ← hfile]
    conv_rhs => rw [hdiff]
    unfold UpdateTargets.reconcile
    simp only [readClock]
    rw [UpdateTargets.updatedTargets_files]
  exact ⟨⟨_, data, hdata, hfinal⟩, data, hdata, hfinal⟩

/-- C10 (amended) on a concrete run with an encoder that fails on instants past 9999: the
export file held an old addition before the run and holds the one addition of the run,
stamped with the clock reading 101, after it. -/
theorem UpdateTargets_export_holds_witness :
    ExportHolds demoEnvInstantLimit demoStorage
      (Storage.UpdateTargets demoEnvInstantLimit demoStorage demoFetched
        (demoWorldWithExport demoSnapshot ⟨3, [⟨"P9", "old", "domain", 3⟩]⟩)).2
      [⟨"P1", "T2", "wildcard", 100⟩] ∧
    ∃ data, demoEnvInstantLimit.marshalIndent
        (UpdateTargets.exportHistory demoEnvInstantLimit
          ⟨[⟨"P1", "T2", "wildcard", 100⟩], [⟨"P2", "T3", "domain", 8⟩]⟩
          (Storage.CompareTargets demoEnvInstantLimit
            (UpdateTargets.filteredTargets demoFetched) demoSnapshot
            (demoWorldWithExport demoSnapshot ⟨3, [⟨"P9", "old", "domain", 3⟩]⟩)).2)
        = some data ∧
      (Storage.UpdateTargets demoEnvInstantLimit demoStorage demoFetched
        (demoWorldWithExport demoSnapshot ⟨3, [⟨"P9", "old", "domain", 3⟩]⟩)).2.files
          (demoEnvInstantLimit.newTargetsPath demoStorage.filePath)
        = FileState.present data.length (some data) :=
  UpdateTargets_export_holds demoEnvInstantLimit demoStorage demoFetched
    (demoWorldWithExport demoSnapshot ⟨3, [⟨"P9", "old", "domain", 3⟩]⟩)
    ⟨[⟨"P1", "T2", "wildcard", 100⟩], [⟨"P2", "T3", "domain", 8⟩]⟩
    demoSnapshot (demoWorldWithExport demoSnapshot ⟨3, [⟨"P9", "old", "domain", 3⟩]⟩)
    rfl (by decide) rfl (by decide) (by decide)

/-- C10 as stated fails. First run: the export file holds an old addition, the run finds no
addition and succeeds, the write to `new-targets.json` fails (which `UpdateTargets` only
logs), and the export file still holds the old addition instead of the empty list. Second
run: the snapshot file of the storage is `new-targets.json` itself, every write succeeds,
and after the run the file holds the new snapshot (two entries), not the added list (one
entry). -/
theorem UpdateTargets_export_stale_counterexample :
    ((Storage.UpdateTargets (demoEnv.withExportWrite false) demoStorage
      [⟨"P1", "T1", "domain", 0⟩]
      (demoWorldWithExport ⟨5, [⟨"P1", "T1", "domain", 7⟩]⟩
        ⟨3, [⟨"P9", "old", "domain", 3⟩]⟩)).1 = Result.ok ⟨[], []⟩ ∧
    (Storage.UpdateTargets (demoEnv.withExportWrite false) demoStorage
      [⟨"P1", "T1", "domain", 0⟩]
      (demoWorldWithExport ⟨5, [⟨"P1", "T1", "domain", 7⟩]⟩
        ⟨3, [⟨"P9", "old", "domain", 3⟩]⟩)).2.files "data/new-targets.json"
      = demoFile ⟨3, [⟨"P9", "old", "domain", 3⟩]⟩ ∧
    ¬ ExportHolds (demoEnv.withExportWrite false) demoStorage
      (Storage.UpdateTargets (demoEnv.withExportWrite false) demoStorage
        [⟨"P1", "T1", "domain", 0⟩]
        (demoWorldWithExport ⟨5, [⟨"P1", "T1", "domain", 7⟩]⟩
          ⟨3, [⟨"P9", "old", "domain", 3⟩]⟩)).2 []) ∧
    ((Storage.UpdateTargets demoEnv ⟨"data/new-targets.json"⟩ demoFetched
      (demoWorldWithExport ⟨0, []⟩ demoSnapshot)).1
      = Result.ok ⟨[⟨"P1", "T2", "wildcard", 100⟩], [⟨"P2", "T3", "domain", 8⟩]⟩ ∧
    (Storage.UpdateTargets demoEnv ⟨"data/new-targets.json"⟩ demoFetched
      (demoWorldWithExport ⟨0, []⟩ demoSnapshot)).2.files "data/new-targets.json"
      = demoFile ⟨103, [⟨"P1", "T1", "domain", 7⟩, ⟨"P1", "T2", "wildcard", 102⟩]⟩ ∧
    ¬ ExportHolds demoEnv ⟨"data/new-targets.json"⟩
      (Storage.UpdateTargets demoEnv ⟨"data/new-targets.json"⟩ demoFetched
        (demoWorldWithExport ⟨0, []⟩ demoSnapshot)).2 [⟨"P1", "T2", "wildcard", 100⟩]) := by
  refine ⟨⟨by decide, by decide, ?_⟩, ⟨by decide, by decide, ?_⟩⟩
  · rintro ⟨t, data, hdata, hfile⟩
    have hd : data = [t, 0] := by
      have : demoMarshal ⟨t, []⟩ = some data := hdata
      simp [demoMarshal] at this
      exact this.symm
    subst hd
    have hf : (Storage.UpdateTargets (demoEnv.withExportWrite false) demoStorage
        [⟨"P1", "T1", "domain", 0⟩]
        (demoWorldWithExport ⟨5, [⟨"P1", "T1", "domain", 7⟩]⟩
          ⟨3, [⟨"P9", "old", "domain", 3⟩]⟩)).2.files "data/new-targets.json"
        = demoFile ⟨3, [⟨"P9", "old", "domain", 3⟩]⟩ := by decide
    have hfile' : (Storage.UpdateTargets (demoEnv.withExportWrite false) demoStorage
        [⟨"P1", "T1", "domain", 0⟩]
        (demoWorldWithExport ⟨5, [⟨"P1", "T1", "domain", 7⟩]⟩
          ⟨3, [⟨"P9", "old", "domain", 3⟩]⟩)).2.files "data/new-targets.json"
        = FileState.present [t, 0].length (some [t, 0]) := hfile
    rw [hf] at hfile'
    simp [demoFile, demoMarshal] at hfile'
  · rintro ⟨t, data, hdata, hfile⟩
    have hd : demoMarshal ⟨t, [⟨"P1", "T2", "wildcard", 100⟩]⟩ = some data := hdata
    have hf : (Storage.UpdateTargets demoEnv ⟨"data/new-targets.json"⟩ demoFetched
        (demoWorldWithExport ⟨0, []⟩ demoSnapshot)).2.files "data/new-targets.json"
        = demoFile ⟨103, [⟨"P1", "T1", "domain", 7⟩, ⟨"P1", "T2", "wildcard", 102⟩]⟩ := by
      decide
    have hfile' : (Storage.UpdateTargets demoEnv ⟨"data/new-targets.json"⟩ demoFetched
        (demoWorldWithExport ⟨0, []⟩ demoSnapshot)).2.files "data/new-targets.json"
        = FileState.present data.length (some data) := hfile
    rw [hf] at hfile'
    simp only [demoMarshal, Option.some.injEq] at hd
    subst hd
    simp [demoFile, demoMarshal] at hfile'

end storage

namespace notifier

/-! ## Lemmas on `NotifyNewTargets` -/

/-- The loop over the targets appends the sections separated by dividers. -/
theorem NotifyNewTargets.appendTargets_eq (env : SlackEnv) (n : Nat) (l : List Target) (i : Nat)
    (h : i + l.length = n) :
    NotifyNewTargets.appendTargets env n i l
      = List.intersperse dividerBlock (l.map (targetBlock env)) := by
  induction l generalizing i with
  | nil => rfl
  | cons t rest ih =>
    cases rest with
    | nil =>
      have hi : ¬ i < n - 1 := by simp at h; omega
      simp [NotifyNewTargets.appendTargets, hi]
    | cons r rs =>
      have hi : i < n - 1 := by simp at h; omega
      have ih' := ih (i + 1) (by simp at h ⊢; omega)
      rw [NotifyNewTargets.appendTargets, if_pos hi, ih']
      simp

/-- The blocks that `NotifyNewTargets` builds. -/
theorem NotifyNewTargets.blocks_eq (env : SlackEnv) (targets : List Target) :
    headerBlock :: NotifyNewTargets.appendTargets env targets.length 0 targets
      = messageBlocks env targets := by
  rw [NotifyNewTargets.appendTargets_eq env targets.length targets 0 (by simp)]
  rfl

/-- The slice `message.Blocks[i:end]` is the next 50 blocks from `i` on. -/
theorem NotifyNewTargets.slice_eq (blocks : List Block) (i : Nat) :
    (blocks.take (if i + maxBlocksPerMessage > blocks.length then blocks.length
        else i + maxBlocksPerMessage)).drop i
      = (blocks.drop i).take maxBlocksPerMessage := by
  split
  · rename_i h
    rw [List.take_of_length_le (Nat.le_refl _)]
    rw [List.take_of_length_le]
    simp only [List.length_drop]
    omega
  · rw [List.drop_take]
    simp

theorem chunkAt_zero (blocks : List Block) :
    chunkAt blocks 0 = { Blocks := blocks.take maxBlocksPerMessage } := by
  simp [chunkAt]

theorem chunkAt_succ (blocks : List Block) (i j : Nat) :
    chunkAt (blocks.drop i) (j + 1) = chunkAt (blocks.drop (i + maxBlocksPerMessage)) j := by
  simp only [chunkAt, List.drop_drop, maxBlocksPerMessage]
  have h : i + 50 * (j + 1) = i + 50 + 50 * j := by omega
  rw [h]

theorem NotifyNewTargets.sendChunks_done (env : SlackEnv) (blocks : List Block) (fuel i : Nat)
    (w : SlackWorld) (h : ¬ i < blocks.length) :
    NotifyNewTargets.sendChunks env blocks fuel i w = (Outcome.success, w) := by
  cases fuel <;> simp [NotifyNewTargets.sendChunks, h]

/-- One turn of the loop whose delivery has status 200. -/
theorem NotifyNewTargets.sendChunks_step (env : SlackEnv) (blocks : List Block) (fuel i : Nat)
    (w : SlackWorld) (h : i < blocks.length) (payload body : String)
    (hm : env.marshal (chunkAt (blocks.drop i) 0) = some payload)
    (hp : env.post w.posts.length payload = some (200, body)) :
    NotifyNewTargets.sendChunks env blocks (fuel + 1) i w
      = NotifyNewTargets.sendChunks env blocks fuel (i + maxBlocksPerMessage)
          { posts := w.posts ++ [payload] } := by
  rw [chunkAt_zero] at hm
  simp only [NotifyNewTargets.sendChunks, h, if_true, NotifyNewTargets.slice_eq, hm, httpPost,
    hp]
  simp

/-- One turn of the loop whose delivery has a status other than 200. -/
theorem NotifyNewTargets.sendChunks_fail (env : SlackEnv) (blocks : List Block) (fuel i : Nat)
    (w : SlackWorld) (h : i < blocks.length) (payload body : String) (statusCode : Nat)
    (hm : env.marshal (chunkAt (blocks.drop i) 0) = some payload)
    (hp : env.post w.posts.length payload = some (statusCode, body))
    (hs : statusCode ≠ 200) :
    ∃ msg, NotifyNewTargets.sendChunks env blocks (fuel + 1) i w
      = (Outcome.error msg, { posts := w.posts ++ [payload] }) := by
  rw [chunkAt_zero] at hm
  simp only [NotifyNewTargets.sendChunks, h, if_true, NotifyNewTargets.slice_eq, hm, httpPost,
    hp]
  simp [hs]

/-- When every delivery has status 200, the loop from block `i` on succeeds and posts the
encodings of messages of at most 50 blocks whose blocks, concatenated, are the blocks from
`i` on. -/
theorem NotifyNewTargets.sendChunks_success (env : SlackEnv) (blocks : List Block) (fuel : Nat) :
    ∀ (i : Nat) (w : SlackWorld), blocks.length ≤ i + fuel →
      (∀ j, maxBlocksPerMessage * j < (blocks.drop i).length →
        DeliveryStatus env (w.posts.length + j) (chunkAt (blocks.drop i) j) 200) →
      ∃ chunks payloads,
        NotifyNewTargets.sendChunks env blocks fuel i w
          = (Outcome.success, { posts := w.posts ++ payloads }) ∧
        Encodes env chunks payloads ∧
        (∀ c ∈ chunks, c.Blocks.length ≤ maxBlocksPerMessage) ∧
        (chunks.map (fun c => c.Blocks)).flatten = blocks.drop i := by
  induction fuel with
  | zero =>
    intro i w hfuel _
    have hi : ¬ i < blocks.length := by omega
    refine ⟨[], [], ?_, rfl, by simp, ?_⟩
    · rw [NotifyNewTargets.sendChunks_done env blocks 0 i w hi]; simp
    · simp; omega
  | succ fuel ih =>
    intro i w hfuel H
    by_cases hi : i < blocks.length
    · obtain ⟨payload, body, hm, hp⟩ := H 0 (by simp [maxBlocksPerMessage]; omega)
      rw [Nat.add_zero] at hp
      have hstep := NotifyNewTargets.sendChunks_step env blocks fuel i w hi payload body hm hp
      obtain ⟨chunks, payloads, hrun, henc, hlen, hcat⟩ :=
        ih (i + maxBlocksPerMessage) { posts := w.posts ++ [payload] }
          (by simp only [maxBlocksPerMessage]; omega)
          (fun j hj => by
            have := H (j + 1) (by
              simp only [List.length_drop, maxBlocksPerMessage] at hj ⊢; omega)
            rw [chunkAt_succ] at this
            have hidx : ({ posts := w.posts ++ [payload] } : SlackWorld).posts.length + j
                = w.posts.length + (j + 1) := by simp; omega
            rw [hidx]; exact this)
      refine ⟨chunkAt (blocks.drop i) 0 :: chunks, payload :: payloads, ?_, ?_, ?_, ?_⟩
      · rw [hstep, hrun]; simp
      · simp only [Encodes, List.map_cons, hm] at henc ⊢
        rw [henc]
      · intro c hc
        rcases List.mem_cons.mp hc with rfl | hc
        · simp [chunkAt_zero]
        · exact hlen c hc
      · simp only [List.map_cons, List.flatten_cons, hcat, chunkAt_zero]
        rw [← List.drop_drop]
        exact List.take_append_drop _ _
    · refine ⟨[], [], ?_, rfl, by simp, ?_⟩
      · rw [NotifyNewTargets.sendChunks_done env blocks _ i w hi]; simp
      · simp; omega

theorem Encodes.cons (env : SlackEnv) (blocks : List Block) (i k : Nat) (payload : String)
    (payloads : List String)
    (hm : env.marshal (chunkAt (blocks.drop i) 0) = some payload)
    (h : Encodes env ((List.range k).map (chunkAt (blocks.drop (i + maxBlocksPerMessage))))
      payloads) :
    Encodes env ((List.range (k + 1)).map (chunkAt (blocks.drop i))) (payload :: payloads) := by
  unfold Encodes at h ⊢
  rw [List.range_succ_eq_map, List.map_cons, List.map_cons, List.map_cons, hm, List.map_map,
    List.map_map]
  rw [List.map_map] at h
  rw [← h]
  congr 1
  apply List.map_congr_left
  intro j _
  simp only [Function.comp, chunkAt_succ]

/-- When the deliveries before the `k`-th have status 200 and the `k`-th has another
status, the loop from block `i` on returns an error after posting exactly the first `k + 1`
chunks. -/
theorem NotifyNewTargets.sendChunks_failure (env : SlackEnv) (blocks : List Block) (k : Nat) :
    ∀ (fuel i : Nat) (w : SlackWorld), blocks.length ≤ i + fuel →
      maxBlocksPerMessage * k < (blocks.drop i).length →
      (∀ j, j < k →
        DeliveryStatus env (w.posts.length + j) (chunkAt (blocks.drop i) j) 200) →
      ∀ statusCode, statusCode ≠ 200 →
      DeliveryStatus env (w.posts.length + k) (chunkAt (blocks.drop i) k) statusCode →
      ∃ msg payloads,
        NotifyNewTargets.sendChunks env blocks fuel i w
          = (Outcome.error msg, { posts := w.posts ++ payloads }) ∧
        Encodes env ((List.range (k + 1)).map (chunkAt (blocks.drop i))) payloads := by
  induction k with
  | zero =>
    intro fuel i w hfuel hk _ statusCode hs hd
    have hi : i < blocks.length := by simp only [List.length_drop] at hk; omega
    obtain ⟨payload, body, hm, hp⟩ := hd
    rw [Nat.add_zero] at hp
    cases fuel with
    | zero => omega
    | succ fuel =>
      obtain ⟨msg, hrun⟩ := NotifyNewTargets.sendChunks_fail env blocks fuel i w hi payload
        body statusCode hm hp hs
      exact ⟨msg, [payload], hrun, by simp [Encodes, List.range_succ, hm]⟩
  | succ k ih =>
    intro fuel i w hfuel hk H statusCode hs hd
    have hi : i < blocks.length := by simp only [List.length_drop] at hk; omega
    obtain ⟨payload, body, hm, hp⟩ := H 0 (Nat.succ_pos k)
    rw [Nat.add_zero] at hp
    cases fuel with
    | zero => omega
    | succ fuel =>
      have hstep := NotifyNewTargets.sendChunks_step env blocks fuel i w hi payload body hm hp
      have hidx : ∀ j, ({ posts := w.posts ++ [payload] } : SlackWorld).posts.length + j
          = w.posts.length + (j + 1) := by intro j; simp; omega
      obtain ⟨msg, payloads, hrun, henc⟩ :=
        ih fuel (i + maxBlocksPerMessage) { posts := w.posts ++ [payload] }
          (by simp only [maxBlocksPerMessage]; omega)
          (by simp only [List.length_drop, maxBlocksPerMessage] at hk ⊢; omega)
          (fun j hj => by
            have := H (j + 1) (Nat.succ_lt_succ hj)
            rw [chunkAt_succ] at this
            rw [hidx]; exact this)
          statusCode hs
          (by rw [hidx, ← chunkAt_succ]; exact hd)
      refine ⟨msg, payload :: payloads, ?_, Encodes.cons env blocks i (k + 1) payload payloads
        hm henc⟩
      rw [hstep, hrun]; simp

theorem length_intersperse_map (sep : Block) (l : List Block) (h : l ≠ []) :
    (List.intersperse sep l).length + 1 = 2 * l.length := by
  induction l with
  | nil => exact absurd rfl h
  | cons a rest ih =>
    cases rest with
    | nil => simp
    | cons b rest =>
      have := ih (by simp)
      simp only [List.intersperse_cons₂, List.length_cons] at this ⊢
      omega

/-- The whole notification of `n ≥ 1` targets has `2 n` blocks: the header, the `n`
sections and the `n - 1` dividers. -/
theorem messageBlocks_length (env : SlackEnv) (targets : List Target) (h : targets ≠ []) :
    (messageBlocks env targets).length = 2 * targets.length := by
  have := length_intersperse_map dividerBlock (targets.map (targetBlock env)) (by simpa using h)
  simp only [messageBlocks, List.length_cons, List.length_map] at this ⊢
  omega

/-- One unit of fuel per block is enough for the loop, whatever the deliveries do. -/
theorem NotifyNewTargets.sendChunks_fuel (env : SlackEnv) (blocks : List Block) (fuel : Nat) :
    ∀ (i : Nat) (w : SlackWorld), blocks.length ≤ i + fuel →
      (NotifyNewTargets.sendChunks env blocks fuel i w).1 ≠ Outcome.outOfFuel := by
  induction fuel with
  | zero =>
    intro i w h
    have hi : ¬ i < blocks.length := by omega
    rw [NotifyNewTargets.sendChunks_done env blocks 0 i w hi]
    simp
  | succ fuel ih =>
    intro i w h
    by_cases hi : i < blocks.length
    · simp only [NotifyNewTargets.sendChunks, hi, if_true, httpPost]
      cases hm : env.marshal
        { Blocks := (blocks.take (if i + maxBlocksPerMessage > blocks.length
            then blocks.length else i + maxBlocksPerMessage)).drop i } with
      | none => simp
      | some payload =>
        cases hp : env.post w.posts.length payload with
        | none => simp [hp]
        | some r =>
          obtain ⟨statusCode, body⟩ := r
          by_cases hs : statusCode = 200
          · simp only [hp, hs, ne_eq, not_true_eq_false, if_false]
            exact ih _ _ (by simp only [maxBlocksPerMessage]; omega)
          · simp [hp, hs]
    · rw [NotifyNewTargets.sendChunks_done env blocks _ i w hi]
      simp

/-! ## The claim on notifications -/

/-- C11: for an empty list `NotifyNewTargets` posts nothing and returns success. For a list
of `n ≥ 1` targets whose deliveries all have status 200, it returns success after posting
the encodings of messages that hold at most 50 blocks each and whose block lists,
concatenated in posting order, are the header block followed by the `n` target sections in
input order separated by dividers (`2 n` blocks in all, so `n - 1` dividers). When the
deliveries before the `k`-th have status 200 and the `k`-th has another status, it returns
an error after posting exactly the chunks `0` to `k`. The fuel of the loop model never runs
out. -/
theorem NotifyNewTargets_chunks (env : SlackEnv) (targets : List Target) (w : SlackWorld) :
    (NotifyNewTargets env targets w).1 ≠ Outcome.outOfFuel ∧
    (targets = [] → NotifyNewTargets env targets w = (Outcome.success, w)) ∧
    (targets ≠ [] →
      (∀ j, maxBlocksPerMessage * j < (messageBlocks env targets).length →
        DeliveryStatus env (w.posts.length + j) (chunkAt (messageBlocks env targets) j) 200) →
      ∃ chunks payloads,
        NotifyNewTargets env targets w
          = (Outcome.success, { posts := w.posts ++ payloads }) ∧
        Encodes env chunks payloads ∧
        (∀ c ∈ chunks, c.Blocks.length ≤ maxBlocksPerMessage) ∧
        (chunks.map (fun c => c.Blocks)).flatten = messageBlocks env targets ∧
        (messageBlocks env targets).length = 2 * targets.length) ∧
    (∀ k statusCode, targets ≠ [] →
      maxBlocksPerMessage * k < (messageBlocks env targets).length →
      (∀ j, j < k →
        DeliveryStatus env (w.posts.length + j) (chunkAt (messageBlocks env targets) j) 200) →
      statusCode ≠ 200 →
      DeliveryStatus env (w.posts.length + k) (chunkAt (messageBlocks env targets) k)
        statusCode →
      ∃ msg payloads,
        NotifyNewTargets env targets w
          = (Outcome.error msg, { posts := w.posts ++ payloads }) ∧
        Encodes env ((List.range (k + 1)).map (chunkAt (messageBlocks env targets)))
          payloads) := by
  have hrun : targets ≠ [] → NotifyNewTargets env targets w
      = NotifyNewTargets.sendChunks env (messageBlocks env targets)
          (messageBlocks env targets).length 0 w := by
    intro hne
    have hlen : ¬ targets.length = 0 := fun h => hne (List.length_eq_zero.mp h)
    simp only [NotifyNewTargets, hlen, if_false, NotifyNewTargets.blocks_eq]
  refine ⟨?_, ?_, ?_, ?_⟩
  · by_cases hne : targets = []
    · subst hne
      simp [NotifyNewTargets]
    · rw [hrun hne]
      exact NotifyNewTargets.sendChunks_fuel env _ _ 0 w (by omega)
  · intro h
    subst h
    rfl
  · intro hne H
    obtain ⟨chunks, payloads, hres, henc, hlen, hcat⟩ :=
      NotifyNewTargets.sendChunks_success env (messageBlocks env targets)
        (messageBlocks env targets).length 0 w (by omega)
        (by simpa only [List.drop_zero] using H)
    rw [List.drop_zero] at hcat
    exact ⟨chunks, payloads, by rw [hrun hne, hres], henc, hlen, hcat,
      messageBlocks_length env targets hne⟩
  · intro k statusCode hne hk H hs hd
    obtain ⟨msg, payloads, hres, henc⟩ :=
      NotifyNewTargets.sendChunks_failure env (messageBlocks env targets) k
        (messageBlocks env targets).length 0 w (by omega)
        (by simpa only [List.drop_zero] using hk)
        (by simpa only [List.drop_zero] using H) statusCode hs
        (by simpa only [List.drop_zero] using hd)
    rw [List.drop_zero] at henc
    exact ⟨msg, payloads, by rw [hrun hne, hres], henc⟩

/-- C11 on concrete runs: the empty list; 26 targets (52 blocks, two chunks) when every
delivery has status 200; and the same targets when the first delivery has status 500, where
only the first chunk is posted. -/
theorem NotifyNewTargets_chunks_witness :
    NotifyNewTargets demoSlackEnv [] ⟨[]⟩ = (Outcome.success, ⟨[]⟩) ∧
    (∃ chunks payloads,
      NotifyNewTargets demoSlackEnv demoTargets ⟨[]⟩
        = (Outcome.success, { posts := [] ++ payloads }) ∧
      Encodes demoSlackEnv chunks payloads ∧
      (∀ c ∈ chunks, c.Blocks.length ≤ maxBlocksPerMessage) ∧
      (chunks.map (fun c => c.Blocks)).flatten = messageBlocks demoSlackEnv demoTargets ∧
      (messageBlocks demoSlackEnv demoTargets).length = 2 * demoTargets.length) ∧
    (∃ msg payloads,
      NotifyNewTargets demoSlackEnvFailing demoTargets ⟨[]⟩
        = (Outcome.error msg, { posts := [] ++ payloads }) ∧
      Encodes demoSlackEnvFailing
        ((List.range (0 + 1)).map (chunkAt (messageBlocks demoSlackEnvFailing demoTargets)))
        payloads) ∧
    (NotifyNewTargets demoSlackEnv demoTargets ⟨[]⟩).2.posts.length = 2 ∧
    (NotifyNewTargets demoSlackEnvFailing demoTargets ⟨[]⟩).2.posts.length = 1 :=
  ⟨(NotifyNewTargets_chunks demoSlackEnv [] ⟨[]⟩).2.1 rfl,
    (NotifyNewTargets_chunks demoSlackEnv demoTargets ⟨[]⟩).2.2.1 (by decide)
      (fun _ _ => ⟨_, _, rfl, rfl⟩),
    (NotifyNewTargets_chunks demoSlackEnvFailing demoTargets ⟨[]⟩).2.2.2 0 500 (by decide)
      (by decide) (fun _ hj => absurd hj (Nat.not_lt_zero _)) (by decide)
      ⟨_, _, rfl, rfl⟩,
    by decide, by decide⟩

end notifier
